import Mathlib

/-!
# RN-Bare-Boilerplate: the Reactotron fetch shim and the App screen

A shallow embedding of `src/ReactotronConfig.js` and `src/App.tsx`.

* JavaScript values are the inductive `JsVal ν` (`undefined`, `null`,
  booleans, numbers, `NaN`, BigInts, strings, arrays, plain objects given by
  their own properties in enumeration order).
* The finite numbers of the engine are a type `ν` with the few operations the
  two files apply to a number (`JsNumber`); what the language guarantees about
  them is `LawfulJsNumber`. Nothing below depends on how a number is stored.
* Every call into the platform (the clock, the Reactotron client, the network
  primitive, the methods of a `Response`) takes its outcome from a `World`,
  so that a throwing or never-ending collaborator is an ordinary input.
* What the code does to the outside is recorded as a list of `Event`s.
-/

namespace RNBare

/-! ## Decimal digits -/

/-- The decimal digit `d` as a character. -/
def digitChar (d : Nat) : Char := Char.ofNat (48 + d)

/-- Decimal digits of `n`, most significant first; `fuel` bounds the number of digits. -/
def natDigitsAux : Nat → Nat → List Char
  | 0, _ => []
  | fuel + 1, n =>
    if n < 10 then [digitChar n] else natDigitsAux fuel (n / 10) ++ [digitChar (n % 10)]

/-- Decimal digits of a natural number. -/
def natDigits (n : Nat) : List Char := natDigitsAux (n + 1) n

/-- Decimal digits of an integer with its sign (BigInt-to-string). -/
def intDigits : Int → List Char
  | .ofNat n => natDigits n
  | .negSucc n => '-' :: natDigits (n + 1)

/-- A decimal digit. -/
def isDigit (c : Char) : Bool := decide (48 ≤ c.toNat) && decide (c.toNat ≤ 57)

/-- The longest run of digits at the front, read as a number on top of `acc`,
with how many digits were read and the rest of the text. -/
def readDigits (acc count : Nat) : List Char → Nat × Nat × List Char
  | [] => (acc, count, [])
  | c :: cs =>
    if isDigit c then readDigits (acc * 10 + (c.toNat - 48)) (count + 1) cs
    else (acc, count, c :: cs)

/-- A canonical unsigned decimal at the front of the text: digits, no leading
zero before another digit. -/
def parseNat (cs : List Char) : Option (Nat × List Char) :=
  match cs with
  | [] => none
  | c :: rest =>
    match readDigits 0 0 (c :: rest) with
    | (n, count, after) =>
      if count = 0 then none
      else if c = '0' ∧ 1 < count then none
      else some (n, after)

/-- The array index a property name stands for: a canonical decimal below `2^32 - 1`. -/
def arrayIndex (k : String) : Option Nat :=
  match parseNat k.data with
  | some (n, []) => if n < 4294967295 then some n else none
  | _ => none

/-! ## Numbers -/

/-- A character that can occur in a number literal. -/
def isNumberChar (c : Char) : Bool :=
  isDigit c || c = '-' || c = '+' || c = '.' || c = 'e' || c = 'E'

/-- The finite numbers of the engine (IEEE doubles, `-0` not told apart from
`0`: no operation used here separates them) with the operations the two files
apply to a number. -/
class JsNumber (ν : Type) where
  /-- Number-to-string, as `String(x)`, a template literal and `JSON.stringify` apply it. -/
  toText : ν → List Char
  /-- The value of a JSON number literal; `none` when the text is not one. -/
  ofLiteral : List Char → Option ν
  /-- Whether the number is zero (the one falsy finite number). -/
  isZero : ν → Bool
  /-- The difference of two time values, `later - earlier`. -/
  sub : ν → ν → ν

/-- What the language guarantees about number-to-string and number literals. -/
structure LawfulJsNumber (ν : Type) [JsNumber ν] : Prop where
  /-- Converting a finite number to a string and reading it back gives the number. -/
  literal_toText : ∀ x : ν, JsNumber.ofLiteral (JsNumber.toText x) = some x
  /-- The string of a finite number is made of digits, signs, a point and an exponent mark. -/
  toText_chars : ∀ (x : ν) (c : Char), c ∈ JsNumber.toText x → isNumberChar c = true
  /-- The string of a finite number starts with a digit or a minus sign. -/
  toText_head : ∀ x : ν, ∃ c tl, JsNumber.toText x = c :: tl ∧ (c = '-' ∨ isDigit c = true)

/-! ## JavaScript values -/

mutual
/-- JavaScript values of the modelled fragment. -/
inductive JsVal (ν : Type) where
  | undefined
  | null
  | bool (b : Bool)
  /-- A finite number. -/
  | num (x : ν)
  | nan
  | bigint (n : Int)
  | str (s : String)
  | arr (xs : JsList ν)
  | obj (fields : JsFields ν)
/-- Elements of an array, in index order. -/
inductive JsList (ν : Type) where
  | nil
  | cons (v : JsVal ν) (rest : JsList ν)
/-- Own enumerable properties of a plain object, in enumeration order. -/
inductive JsFields (ν : Type) where
  | nil
  | cons (k : String) (v : JsVal ν) (rest : JsFields ν)
end

/-- A thrown value or rejection reason: an error object. `message` and `stack`
are `none` when the property is missing (reads as `undefined`). -/
structure JsError where
  name : String
  message : Option String
  stack : Option String
deriving DecidableEq, Repr

/-- `new TypeError(msg)`. -/
def typeError (msg : String) : JsError :=
  { name := "TypeError", message := some msg, stack := none }

/-- `new SyntaxError(msg)`. -/
def syntaxError (msg : String) : JsError :=
  { name := "SyntaxError", message := some msg, stack := none }

variable {ν : Type} [JsNumber ν]

/-- A string-or-undefined property read as a JavaScript value. -/
def optStr : Option String → JsVal ν
  | some s => .str s
  | none => .undefined

namespace JsVal

/-- ToBoolean. -/
def truthy : JsVal ν → Bool
  | undefined => false
  | null => false
  | bool b => b
  | num x => !JsNumber.isZero x
  | nan => false
  | bigint n => n != 0
  | str s => !s.data.isEmpty
  | arr _ => true
  | obj _ => true

/-- The operator `a || b`. -/
def or (a b : JsVal ν) : JsVal ν := if a.truthy then a else b

end JsVal

namespace JsFields

/-- The value of own property `k`, if there is one. -/
def lookup (k : String) : JsFields ν → Option (JsVal ν)
  | nil => none
  | cons k' v rest => if k' = k then some v else lookup k rest

/-- Whether the object has own property `k`. -/
def hasKey (k : String) : JsFields ν → Bool
  | nil => false
  | cons k2 _ rest => decide (k2 = k) || hasKey k rest

/-- Concatenation of property lists. -/
def append : JsFields ν → JsFields ν → JsFields ν
  | nil, ys => ys
  | cons k v rest, ys => cons k v (append rest ys)

/-- A new value for the existing property `k`, which keeps its place. -/
def replace (k : String) (v : JsVal ν) : JsFields ν → JsFields ν
  | nil => nil
  | cons k' v' rest => if k' = k then cons k' v rest else cons k' v' (replace k v rest)

/-- A new property `k` that is the array index `i`: it goes after the array
indices below `i` and before every other property. -/
def insertIndex (i : Nat) (k : String) (v : JsVal ν) : JsFields ν → JsFields ν
  | nil => cons k v nil
  | cons k' v' rest =>
    match arrayIndex k' with
    | some j => if j < i then cons k' v' (insertIndex i k v rest) else cons k v (cons k' v' rest)
    | none => cons k v (cons k' v' rest)

/-- The assignment `o[k] = v` as property enumeration sees it: an existing
property keeps its place; a new one that is an array index goes among the
array indices, in ascending order, ahead of the other properties; any other
new one goes last. -/
def set (k : String) (v : JsVal ν) (fs : JsFields ν) : JsFields ν :=
  if fs.hasKey k then fs.replace k v
  else
    match arrayIndex k with
    | some i => fs.insertIndex i k v
    | none => fs.append (cons k v nil)

/-- The properties of `pending` assigned in order onto `acc`. -/
def assignAll : JsFields ν → JsFields ν → JsFields ν
  | acc, nil => acc
  | acc, cons k v rest => assignAll (set k v acc) rest

/-- An object literal whose property names are distinct and not array indices. -/
def ofList : List (String × JsVal ν) → JsFields ν
  | [] => nil
  | (k, v) :: rest => cons k v (ofList rest)

end JsFields

namespace JsVal

/-- Optional-chaining read `v?.k` for a property `k` that no built-in prototype
defines (`method`, `headers`, `body`): `undefined` unless `v` is an object
owning `k`. -/
def getOpt (v : JsVal ν) (k : String) : JsVal ν :=
  match v with
  | obj fs => (fs.lookup k).getD undefined
  | _ => undefined

/-- Plain read `v.k` of such a property: throws on `null` and `undefined`. -/
def get (v : JsVal ν) (k : String) : Except JsError (JsVal ν) :=
  match v with
  | undefined => .error (typeError ("Cannot read property " ++ k ++ " of undefined"))
  | null => .error (typeError ("Cannot read property " ++ k ++ " of null"))
  | obj fs => .ok ((fs.lookup k).getD undefined)
  | _ => .ok undefined

end JsVal

/-- Index `i` of an argument list, `undefined` past its end (array destructuring). -/
def argAt : List (JsVal ν) → Nat → JsVal ν
  | [], _ => .undefined
  | v :: _, 0 => v
  | _ :: rest, i + 1 => argAt rest i

/-! ## String conversion -/

mutual
/-- The conversion `String(v)`. -/
def toJsChars : JsVal ν → List Char
  | .undefined => "undefined".data
  | .null => "null".data
  | .bool true => "true".data
  | .bool false => "false".data
  | .num x => JsNumber.toText x
  | .nan => "NaN".data
  | .bigint n => intDigits n
  | .str s => s.data
  | .arr xs => joinChars xs
  | .obj _ => "[object Object]".data
/-- Array-to-string: the elements joined by commas, `null` and `undefined` as empty. -/
def joinChars : JsList ν → List Char
  | .nil => []
  | .cons v .nil => elemChars v
  | .cons v (.cons v2 rest) => elemChars v ++ ',' :: joinChars (.cons v2 rest)
/-- One element inside an array-to-string conversion. -/
def elemChars : JsVal ν → List Char
  | .undefined => []
  | .null => []
  | .bool true => "true".data
  | .bool false => "false".data
  | .num x => JsNumber.toText x
  | .nan => "NaN".data
  | .bigint n => intDigits n
  | .str s => s.data
  | .arr xs => joinChars xs
  | .obj _ => "[object Object]".data
end

/-- The conversion `String(v)` (also what a template literal applies). -/
def toJsString (v : JsVal ν) : String := String.mk (toJsChars v)

/-! ## `JSON.stringify(value, null, 2)` -/

/-- A lower-case hexadecimal digit. -/
def hexChar (d : Nat) : Char := if d < 10 then Char.ofNat (48 + d) else Char.ofNat (87 + d)

/-- The JSON escape of one character (QuoteJSONString, one code point). -/
def escapeChar (c : Char) : List Char :=
  if c = '"' then ['\\', '"']
  else if c = '\\' then ['\\', '\\']
  else if c = '\n' then ['\\', 'n']
  else if c = '\r' then ['\\', 'r']
  else if c = '\t' then ['\\', 't']
  else if c.toNat = 8 then ['\\', 'b']
  else if c.toNat = 12 then ['\\', 'f']
  else if c.toNat < 32 then
    ['\\', 'u', '0', '0', hexChar (c.toNat / 16), hexChar (c.toNat % 16)]
  else [c]

/-- The escaped body of a string literal. -/
def escapeChars : List Char → List Char
  | [] => []
  | c :: cs => escapeChar c ++ escapeChars cs

/-- QuoteJSONString. -/
def quote (s : String) : List Char := '"' :: (escapeChars s.data ++ ['"'])

/-- A run of `n` spaces. -/
def spaces : Nat → List Char
  | 0 => []
  | n + 1 => ' ' :: spaces n

/-- The parts joined by `sep` (no separator after the last one). -/
def joinSep (sep : List Char) : List (List Char) → List Char
  | [] => []
  | [p] => p
  | p :: q :: rest => p ++ sep ++ joinSep sep (q :: rest)

/-- A non-empty list of parts laid out between brackets, one part per line at
indentation `ind + 2`, the closing bracket at indentation `ind`. -/
def layout (ind : Nat) (opening closing : Char) (parts : List (List Char)) : List Char :=
  match parts with
  | [] => [opening, closing]
  | _ => opening :: '\n' :: (spaces (ind + 2) ++ joinSep (',' :: '\n' :: spaces (ind + 2)) parts
      ++ '\n' :: (spaces ind ++ [closing]))

mutual
/-- SerializeJSONProperty at indentation `ind` with a gap of two spaces:
`none` is the result `undefined`, an error is the TypeError for a BigInt. -/
def serialize (ind : Nat) : JsVal ν → Except JsError (Option (List Char))
  | .undefined => .ok none
  | .null => .ok (some "null".data)
  | .bool true => .ok (some "true".data)
  | .bool false => .ok (some "false".data)
  | .num x => .ok (some (JsNumber.toText x))
  | .nan => .ok (some "null".data)
  | .bigint _ => .error (typeError "Do not know how to serialize a BigInt")
  | .str s => .ok (some (quote s))
  | .arr xs =>
    match serializeElems (ind + 2) xs with
    | .error e => .error e
    | .ok parts => .ok (some (layout ind '[' ']' parts))
  | .obj fs =>
    match serializeMembers (ind + 2) fs with
    | .error e => .error e
    | .ok parts => .ok (some (layout ind '\x7b' '\x7d' parts))
/-- SerializeJSONArray, the list of parts: an element without a serialization is `null`. -/
def serializeElems (ind : Nat) : JsList ν → Except JsError (List (List Char))
  | .nil => .ok []
  | .cons v rest =>
    match serialize ind v with
    | .error e => .error e
    | .ok p =>
      match serializeElems ind rest with
      | .error e => .error e
      | .ok ps => .ok (p.getD "null".data :: ps)
/-- SerializeJSONObject, the list of parts: a property without a serialization is left out. -/
def serializeMembers (ind : Nat) : JsFields ν → Except JsError (List (List Char))
  | .nil => .ok []
  | .cons k v rest =>
    match serialize ind v with
    | .error e => .error e
    | .ok p =>
      match serializeMembers ind rest with
      | .error e => .error e
      | .ok ps =>
        match p with
        | none => .ok ps
        | some t => .ok ((quote k ++ ':' :: ' ' :: t) :: ps)
end

/-- The call `JSON.stringify(v, null, 2)`: a string, `undefined` (`none`), or a throw. -/
def jsonStringify (v : JsVal ν) : Except JsError (Option String) :=
  match serialize 0 v with
  | .error e => .error e
  | .ok none => .ok none
  | .ok (some cs) => .ok (some (String.mk cs))

/-! ## `src/ReactotronConfig.js`: helpers -/

/-- `formatForLog(obj)` (lines 4-12). -/
def formatForLog (obj : JsVal ν) : JsVal ν :=
  if !obj.truthy then .undefined
  else
    match obj with
    | .str s => .str s
    | _ =>
      match jsonStringify obj with
      | .ok r => optStr r
      | .error _ => .str (toJsString obj)

/-- `withPrettySeparators(label, valueObj)` (lines 15-21). -/
def withPrettySeparators (label : String) (valueObj : JsFields ν) : JsVal ν :=
  .obj (((JsFields.cons "───────────────" (.str ("🚀 " ++ label ++ " START 🚀")) .nil).assignAll
    valueObj).set "─────────────── END" (.str ("🏁 " ++ label ++ " END 🏁")))

/-! ## The platform boundary -/

/-- How an asynchronous call ends; `pending` is a promise that never settles. -/
inductive Settle (α : Type) where
  | resolved (a : α)
  | rejected (e : JsError)
  | pending

/-- A `Response` object as the code sees it: its data properties and what each
of its methods does when called. Neither file constructs one; every field is
an input. `copy` stands for object identity: `0` for an object handed out by
the network primitive, one more for each `clone()`. -/
structure Response (ν : Type) where
  status : ν
  statusText : String
  ok : Bool
  /-- The header list, as `headers.entries()` enumerates it. -/
  headers : List (String × String)
  /-- The error `headers.get(...)` throws, if it throws. -/
  headersGetThrows : Option JsError
  /-- The error `headers.entries()` throws, if it throws. -/
  entriesThrows : Option JsError
  /-- The error `clone()` throws, if it throws. -/
  cloneThrows : Option JsError
  /-- How the promise of `json()` ends. -/
  json : Settle (JsVal ν)
  /-- How the promise of `text()` ends. -/
  text : Settle String
  copy : Nat

/-- The method `clone()` when it returns: a distinct object with the same content. -/
def Response.cloned (r : Response ν) : Response ν := { r with copy := r.copy + 1 }

/-- The method `headers.get(name)` when it returns: the value, or `null` (`none`). -/
def headerGet (name : String) : List (String × String) → Option String
  | [] => none
  | (k, v) :: rest => if k = name then some v else headerGet name rest

/-- `Object.fromEntries(entries)` for string-valued entries: the entries are
assigned in order. -/
def objectFromEntries (entries : List (String × String)) : JsFields ν :=
  entries.foldl (fun fs kv => fs.set kv.1 (.str kv.2)) .nil

/-- `hay.startsWith(needle)`, on character lists. -/
def startsWith : List Char → List Char → Bool
  | _, [] => true
  | [], _ :: _ => false
  | c :: cs, p :: ps => c == p && startsWith cs ps

/-- `hay.includes(needle)`, on character lists. -/
def includes : List Char → List Char → Bool
  | [], needle => needle.isEmpty
  | c :: cs, needle => startsWith (c :: cs) needle || includes cs needle

/-- The argument of one `Reactotron.display({ name, preview, value, important })`
call; a call that leaves `important` out has `important = false`, the default
the client applies. -/
structure DisplayRecord (ν : Type) where
  name : String
  preview : JsVal ν
  value : JsVal ν
  important : Bool

/-- What the code does to the outside world, in order. -/
inductive Event (ν : Type) where
  /-- `Reactotron.configure(...)`, line 24. -/
  | configure
  /-- `.useReactNative(...)`, line 28. -/
  | useReactNative
  /-- `.connect()`, line 36. -/
  | connect
  /-- `Reactotron.clear()`. -/
  | clear
  /-- `Reactotron.log(msg)`. -/
  | log (msg : JsVal ν)
  /-- A `Reactotron.display(record)` call that returned. -/
  | display (record : DisplayRecord ν)
  /-- The network primitive invoked with an argument list. -/
  | fetchCall (args : List (JsVal ν))
  /-- `response.clone()` called. -/
  | clone
  /-- `json()` called on the response whose `copy` is given. -/
  | readJson (copy : Nat)
  /-- `text()` called on the response whose `copy` is given. -/
  | readText (copy : Nat)
  /-- A handler that was registered with `ErrorUtils` before the module loaded, invoked. -/
  | handlerCall (id : Nat) (error : JsError) (isFatal : Bool)

/-- The outcomes of the platform calls the code makes. -/
structure World (ν : Type) where
  /-- The value of the `k`-th `Date.now()`. -/
  now : Nat → ν
  /-- The value of the `k`-th `new Date().toLocaleTimeString()`. -/
  timeString : Nat → String
  /-- The error the `k`-th `Reactotron.display` call throws, if it throws. -/
  displayThrows : Nat → Option JsError
  /-- How the network primitive (the original `global.fetch`) settles. -/
  fetch : List (JsVal ν) → Settle (Response ν)

/-- The running state: the events so far and how many clock readings, time
strings and display calls have been consumed. -/
structure Sys (ν : Type) where
  trace : List (Event ν)
  clockReads : Nat
  stampReads : Nat
  displayCalls : Nat

/-- The state before anything ran. -/
def Sys.init : Sys ν := { trace := [], clockReads := 0, stampReads := 0, displayCalls := 0 }

/-- Record an event. -/
def Sys.push (s : Sys ν) (e : Event ν) : Sys ν := { s with trace := s.trace ++ [e] }

/-- `Date.now()`. -/
def dateNow (w : World ν) (s : Sys ν) : ν × Sys ν :=
  (w.now s.clockReads, { s with clockReads := s.clockReads + 1 })

/-- `new Date().toLocaleTimeString()`. -/
def timeStamp (w : World ν) (s : Sys ν) : String × Sys ν :=
  (w.timeString s.stampReads, { s with stampReads := s.stampReads + 1 })

/-- `Reactotron.display(record)`: the error it throws, or `none` after emitting the record. -/
def display (w : World ν) (s : Sys ν) (record : DisplayRecord ν) : Option JsError × Sys ν :=
  match w.displayThrows s.displayCalls with
  | some e => (some e, { s with displayCalls := s.displayCalls + 1 })
  | none =>
    (none, { s with displayCalls := s.displayCalls + 1, trace := s.trace ++ [.display record] })

/-- The template literal for a duration, `${duration}ms`. -/
def msText (duration : ν) : String := String.mk (JsNumber.toText duration) ++ "ms"

/-! ## `src/ReactotronConfig.js`: the patched `global.fetch` (lines 111-187) -/

/-- The record of lines 118-130. -/
def requestRecord (url config : JsVal ν) (ts : String) : DisplayRecord ν :=
  { name := "📡 FETCH REQUEST"
    preview := url
    value := withPrettySeparators "FETCH REQUEST" (JsFields.ofList [
      ("//", .str "--- REQUEST DETAILS ---"),
      ("URL", url),
      ("Method", (config.getOpt "method").or (.str "GET")),
      ("Headers", formatForLog (config.getOpt "headers")),
      ("Body", formatForLog (config.getOpt "body")),
      ("Timestamp", .str ts)])
    important := true }

/-- The record of lines 151-166. -/
def responseRecord (url : JsVal ν) (duration : ν) (response : Response ν)
    (responseData : JsVal ν) (ts : String) : DisplayRecord ν :=
  { name := "✅ FETCH RESPONSE"
    preview := .str (toJsString url ++ " (" ++ msText duration ++ ")")
    value := withPrettySeparators "FETCH RESPONSE" (JsFields.ofList [
      ("//", .str "--- RESPONSE DETAILS ---"),
      ("URL", url),
      ("Status",
        .str (String.mk (JsNumber.toText response.status) ++ " " ++ response.statusText)),
      ("OK", .bool response.ok),
      ("Duration", .str (msText duration)),
      ("Headers", formatForLog (.obj (objectFromEntries response.headers))),
      ("──── DATA ────", .str ""),
      ("Data", formatForLog responseData),
      ("Timestamp", .str ts)])
    important := true }

/-- The record of lines 172-183. -/
def errorRecord (url : JsVal ν) (duration : ν) (error : JsError) (ts : String) :
    DisplayRecord ν :=
  { name := "❌ FETCH ERROR"
    preview := .str (toJsString url ++ " (" ++ msText duration ++ ")")
    value := withPrettySeparators "FETCH ERROR" (JsFields.ofList [
      ("//", .str "--- ERROR DETAILS ---"),
      ("URL", url),
      ("Message", optStr error.message),
      ("Duration", .str (msText duration)),
      ("Timestamp", .str ts)])
    important := true }

/-- The `catch (error)` block, lines 169-186. -/
def onRejected (w : World ν) (url : JsVal ν) (startTime : ν) (error : JsError) (s : Sys ν) :
    Settle (Response ν) × Sys ν :=
  let (t, s) := dateNow w s
  let duration := JsNumber.sub t startTime
  let (ts, s) := timeStamp w s
  match display w s (errorRecord url duration error ts) with
  | (some thrown, s) => (.rejected thrown, s)
  | (none, s) => (.rejected error, s)

/-- The inner `try`/`catch`, lines 138-149: the value of `responseData` after
it, or `none` when the awaited body read never settles. -/
def readBody (response responseClone : Response ν) (s : Sys ν) : Option (JsVal ν) × Sys ν :=
  match response.headersGetThrows with
  | some _ => (some .null, s)
  | none =>
    match headerGet "content-type" response.headers with
    | none => (some .null, s)
    | some contentType =>
      if !contentType.data.isEmpty && includes contentType.data "application/json".data then
        match responseClone.json with
        | .resolved v => (some v, s.push (.readJson responseClone.copy))
        | .rejected _ => (some .null, s.push (.readJson responseClone.copy))
        | .pending => (none, s.push (.readJson responseClone.copy))
      else if !contentType.data.isEmpty && includes contentType.data "text/".data then
        match responseClone.text with
        | .resolved t => (some (.str t), s.push (.readText responseClone.copy))
        | .rejected _ => (some .null, s.push (.readText responseClone.copy))
        | .pending => (none, s.push (.readText responseClone.copy))
      else (some .null, s)

/-- The `try` block after the primitive resolved, lines 134-168. -/
def onResolved (w : World ν) (url : JsVal ν) (startTime : ν) (response : Response ν)
    (s : Sys ν) : Settle (Response ν) × Sys ν :=
  let (t, s) := dateNow w s
  let duration := JsNumber.sub t startTime
  let s := s.push .clone
  match response.cloneThrows with
  | some thrown => onRejected w url startTime thrown s
  | none =>
    match readBody response response.cloned s with
    | (none, s) => (.pending, s)
    | (some responseData, s) =>
      match response.entriesThrows with
      | some thrown => onRejected w url startTime thrown s
      | none =>
        let (ts, s) := timeStamp w s
        match display w s (responseRecord url duration response responseData ts) with
        | (some thrown, s) => onRejected w url startTime thrown s
        | (none, s) => (.resolved response, s)

/-- The function assigned to `global.fetch` in development mode, lines 114-187. -/
def patchedFetch (w : World ν) (args : List (JsVal ν)) (s : Sys ν) :
    Settle (Response ν) × Sys ν :=
  let url := argAt args 0
  let config := argAt args 1
  let (startTime, s) := dateNow w s
  let (ts, s) := timeStamp w s
  match display w s (requestRecord url config ts) with
  | (some thrown, s) => (.rejected thrown, s)
  | (none, s) =>
    let s := s.push (.fetchCall args)
    match w.fetch args with
    | .pending => (.pending, s)
    | .rejected error => onRejected w url startTime error s
    | .resolved response => onResolved w url startTime response s

/-- The network primitive itself, `originalFetch(...args)`. -/
def originalFetch (w : World ν) (args : List (JsVal ν)) (s : Sys ν) :
    Settle (Response ν) × Sys ν :=
  (w.fetch args, s.push (.fetchCall args))

/-! ## `src/ReactotronConfig.js`: the module body -/

/-- What can sit in the handler slot of React Native `ErrorUtils`. -/
inductive SlotVal where
  /-- A handler function registered before the module loaded. -/
  | priorHandler (id : Nat)
  /-- The arrow function of lines 92-107. -/
  | installedHandler
  /-- An error object: not a function. -/
  | errorObject (e : JsError)
deriving DecidableEq

/-- The function values the constant `originalErrorHandler` of line 91 can hold. -/
inductive Callee where
  /-- The method `ErrorUtils.setGlobalHandler` itself. -/
  | setGlobalHandler
  /-- A handler function registered before the module loaded. -/
  | handler (id : Nat)
deriving DecidableEq

/-- The two objects `global.logger` can be. -/
inductive LoggerImpl where
  /-- The object of lines 52-88. -/
  | dev
  /-- The object of lines 196-201. -/
  | noop
deriving DecidableEq

/-- The two objects `console.tron` can be. -/
inductive TronImpl where
  /-- The Reactotron client (line 43). -/
  | reactotron
  /-- The object of lines 190-194. -/
  | noop
deriving DecidableEq

/-- The globals the module reads and writes, and its one module-level constant
that outlives the load. -/
structure Runtime where
  /-- Whether `global.fetch` is the function of lines 114-187 rather than the primitive. -/
  fetchPatched : Bool
  /-- The object `global.logger`, if assigned. -/
  logger : Option LoggerImpl
  /-- The object `console.tron`, if assigned. -/
  tron : Option TronImpl
  /-- The handler slot of `ErrorUtils` (React Native keeps it in a closure
  variable that `setGlobalHandler(fun)` overwrites with `fun`). -/
  errorSlot : Option SlotVal
  /-- The constant `originalErrorHandler`, once line 91 ran. -/
  originalErrorHandler : Option Callee
deriving DecidableEq

/-- The runtime before the module loads, with `slot` in the `ErrorUtils` handler slot. -/
def Runtime.fresh (slot : Option SlotVal) : Runtime :=
  { fetchPatched := false, logger := none, tron := none, errorSlot := slot,
    originalErrorHandler := none }

/-- `ErrorUtils.setGlobalHandler(fun)`. -/
def setGlobalHandler (g : Runtime) (f : SlotVal) : Runtime := { g with errorSlot := some f }

/-- Evaluating the module, top to bottom, with `__DEV__ = dev`. -/
def loadModule (dev : Bool) (g : Runtime) (s : Sys ν) : Runtime × Sys ν :=
  -- lines 24-36
  let s := ((s.push .configure).push .useReactNative).push .connect
  -- lines 39-47
  let (g, s) :=
    if dev then
      ({ g with tron := some .reactotron },
        (s.push .clear).push (.log (.str "🚀 Reactotron connected successfully!")))
    else (g, s)
  -- lines 50-108
  let g :=
    if dev then
      setGlobalHandler
        { g with logger := some .dev, originalErrorHandler := some .setGlobalHandler }
        .installedHandler
    else g
  -- lines 111-202
  let g :=
    if dev then { g with fetchPatched := true }
    else { g with tron := some .noop, logger := some .noop }
  (g, s)

/-- A call of `global.fetch(...args)`. -/
def globalFetch (g : Runtime) (w : World ν) (args : List (JsVal ν)) (s : Sys ν) : Settle (Response ν) × Sys ν :=
  if g.fetchPatched then patchedFetch w args s else originalFetch w args s

/-- The record of lines 93-102. -/
def globalErrorRecord (error : JsError) (isFatal : Bool) : DisplayRecord ν :=
  { name := "💥 GLOBAL ERROR"
    preview := optStr error.message
    value := .obj (JsFields.ofList [
      ("isFatal", .bool isFatal),
      ("message", optStr error.message),
      ("stack", optStr error.stack)])
    important := true }

/-- Calling the function value `callee` with the arguments `(error, isFatal)`. -/
def callWith (callee : Callee) (error : JsError) (isFatal : Bool) (g : Runtime) (s : Sys ν) :
    Runtime × Sys ν :=
  match callee with
  | .setGlobalHandler => (setGlobalHandler g (.errorObject error), s)
  | .handler id => (g, s.push (.handlerCall id error isFatal))

/-- The handler of lines 92-107, called with `(error, isFatal)`: the error it
throws if any, and the runtime and state it leaves. -/
def installedHandler (w : World ν) (error : JsError) (isFatal : Bool) (g : Runtime) (s : Sys ν) :
    Option JsError × Runtime × Sys ν :=
  match display w s (globalErrorRecord error isFatal) with
  | (some thrown, s) => (some thrown, g, s)
  | (none, s) =>
    match g.originalErrorHandler with
    | some callee =>
      let (g, s) := callWith callee error isFatal g s
      (none, g, s)
    | none => (none, g, s)

/-- React Native reporting an uncaught error: it calls whatever is in the
handler slot, if the slot is not empty. -/
def reportError (w : World ν) (error : JsError) (isFatal : Bool) (g : Runtime) (s : Sys ν) :
    Option JsError × Runtime × Sys ν :=
  match g.errorSlot with
  | none => (none, g, s)
  | some (.priorHandler id) => (none, g, s.push (.handlerCall id error isFatal))
  | some .installedHandler => installedHandler w error isFatal g s
  | some (.errorObject _) => (some (typeError "_globalHandler is not a function"), g, s)

/-- The four methods of `global.logger`. -/
inductive LoggerMethod where
  | info
  | success
  | warning
  | error
deriving DecidableEq

/-- The record a method of the development logger displays (lines 53-87);
`data` is the second parameter after its default `null` was applied. -/
def loggerRecord (m : LoggerMethod) (message data : JsVal ν) : DisplayRecord ν :=
  match m with
  | .info =>
    { name := "ℹ️ INFO", preview := message, value := data.or message, important := false }
  | .success =>
    { name := "✅ SUCCESS", preview := message, value := data.or message, important := true }
  | .warning =>
    { name := "⚠️ WARNING", preview := message, value := data.or message, important := true }
  | .error =>
    { name := "❌ ERROR"
      preview := message
      value := .obj (JsFields.ofList [
        ("message", message),
        ("error", (data.getOpt "message").or data),
        ("stack", data.getOpt "stack")])
      important := true }

/-- A parameter with the default `null`: the default applies to `undefined`. -/
def orNull : JsVal ν → JsVal ν
  | .undefined => .null
  | v => v

/-- A call `global.logger.m(...args)`; `none` when `global.logger` is not
assigned (the call then throws before reaching any method). -/
def loggerCall (g : Runtime) (w : World ν) (m : LoggerMethod) (args : List (JsVal ν)) (s : Sys ν) :
    Option (Option JsError × Sys ν) :=
  match g.logger with
  | none => none
  | some .noop => some (none, s)
  | some .dev => some (display w s (loggerRecord m (argAt args 0) (orNull (argAt args 1))))

/-- A call of one of the three methods of `console.tron` the fallback defines. -/
inductive TronCall (ν : Type) where
  | log (msg : JsVal ν)
  | display (record : DisplayRecord ν)
  | clear

/-- A call `console.tron.m(...)`; `none` when `console.tron` is not assigned. -/
def tronCall (g : Runtime) (w : World ν) (c : TronCall ν) (s : Sys ν) : Option (Option JsError × Sys ν) :=
  match g.tron with
  | none => none
  | some .noop => some (none, s)
  | some .reactotron =>
    match c with
    | .log msg => some (none, s.push (.log msg))
    | .display record => some (display w s record)
    | .clear => some (none, s.push .clear)

/-! ## `JSON.parse(text)` -/

/-- JSON white space. -/
def isWs (c : Char) : Bool := c = ' ' || c = '\n' || c = '\r' || c = '\t'

/-- The text after leading white space. -/
def skipWs : List Char → List Char
  | [] => []
  | c :: cs => if isWs c then skipWs cs else c :: cs

/-- The longest run of number characters at the front, and the rest of the text. -/
def takeNumber : List Char → List Char × List Char
  | [] => ([], [])
  | c :: cs =>
    if isNumberChar c then ((takeNumber cs).1.cons c, (takeNumber cs).2)
    else ([], c :: cs)

/-- A JSON number at the front of the text. -/
def parseNumber (cs : List Char) : Option (JsVal ν × List Char) :=
  match JsNumber.ofLiteral (takeNumber cs).1 with
  | some x => some (.num x, (takeNumber cs).2)
  | none => none

/-- The value of a hexadecimal digit. -/
def hexVal (c : Char) : Option Nat :=
  if 48 ≤ c.toNat ∧ c.toNat ≤ 57 then some (c.toNat - 48)
  else if 97 ≤ c.toNat ∧ c.toNat ≤ 102 then some (c.toNat - 87)
  else if 65 ≤ c.toNat ∧ c.toNat ≤ 70 then some (c.toNat - 55)
  else none

/-- The character a one-letter escape stands for. -/
def unescape (e : Char) : Option Char :=
  if e = '"' then some '"'
  else if e = '\\' then some '\\'
  else if e = '/' then some '/'
  else if e = 'n' then some '\n'
  else if e = 'r' then some '\r'
  else if e = 't' then some '\t'
  else if e = 'b' then some (Char.ofNat 8)
  else if e = 'f' then some (Char.ofNat 12)
  else none

/-- The characters of a string literal after its opening quote, up to the
closing quote, and the text after it. -/
def parseStringBody : List Char → Option (List Char × List Char)
  | [] => none
  | c :: cs =>
    if c = '"' then some ([], cs)
    else if c = '\\' then
      match cs with
      | [] => none
      | e :: rest =>
        if e = 'u' then
          match rest with
          | h1 :: h2 :: h3 :: h4 :: rest2 =>
            match hexVal h1, hexVal h2, hexVal h3, hexVal h4 with
            | some a, some b, some c2, some d =>
              match parseStringBody rest2 with
              | some (body, after) =>
                some (Char.ofNat (((a * 16 + b) * 16 + c2) * 16 + d) :: body, after)
              | none => none
            | _, _, _, _ => none
          | _ => none
        else
          match unescape e with
          | some ch =>
            match parseStringBody rest with
            | some (body, after) => some (ch :: body, after)
            | none => none
          | none => none
    else if c.toNat < 32 then none
    else
      match parseStringBody cs with
      | some (body, after) => some (c :: body, after)
      | none => none

mutual
/-- One JSON value at the front of the text (no leading white space), and the
text after it; `fuel` bounds the number of nested calls. -/
def parseValue : Nat → List Char → Option ((JsVal ν) × List Char)
  | 0, _ => none
  | _ + 1, [] => none
  | fuel + 1, c :: cs =>
    if c = 'n' then
      match cs with
      | 'u' :: 'l' :: 'l' :: rest => some (.null, rest)
      | _ => none
    else if c = 't' then
      match cs with
      | 'r' :: 'u' :: 'e' :: rest => some (.bool true, rest)
      | _ => none
    else if c = 'f' then
      match cs with
      | 'a' :: 'l' :: 's' :: 'e' :: rest => some (.bool false, rest)
      | _ => none
    else if c = '"' then
      match parseStringBody cs with
      | some (body, rest) => some (.str (String.mk body), rest)
      | none => none
    else if c = '[' then
      match skipWs cs with
      | [] => none
      | d :: rest =>
        if d = ']' then some (.arr .nil, rest)
        else
          match parseElems fuel (d :: rest) with
          | some (xs, after) => some (.arr xs, after)
          | none => none
    else if c = '\x7b' then
      match skipWs cs with
      | [] => none
      | d :: rest =>
        if d = '\x7d' then some (.obj .nil, rest)
        else
          match parseMembers fuel (d :: rest) with
          | some (fs, after) => some (.obj (JsFields.assignAll .nil fs), after)
          | none => none
    else parseNumber (c :: cs)
/-- The elements of a non-empty array up to its closing bracket. -/
def parseElems : Nat → List Char → Option ((JsList ν) × List Char)
  | 0, _ => none
  | fuel + 1, cs =>
    match parseValue fuel cs with
    | none => none
    | some (v, rest) =>
      match skipWs rest with
      | [] => none
      | d :: rest2 =>
        if d = ',' then
          match parseElems fuel (skipWs rest2) with
          | some (xs, after) => some (.cons v xs, after)
          | none => none
        else if d = ']' then some (.cons v .nil, rest2)
        else none
/-- The members of a non-empty object up to its closing brace, in source order. -/
def parseMembers : Nat → List Char → Option ((JsFields ν) × List Char)
  | 0, _ => none
  | _ + 1, [] => none
  | fuel + 1, c :: cs =>
    if c = '"' then
      match parseStringBody cs with
      | none => none
      | some (key, rest) =>
        match skipWs rest with
        | [] => none
        | d :: rest2 =>
          if d = ':' then
            match parseValue fuel (skipWs rest2) with
            | none => none
            | some (v, rest3) =>
              match skipWs rest3 with
              | [] => none
              | d2 :: rest4 =>
                if d2 = ',' then
                  match parseMembers fuel (skipWs rest4) with
                  | some (fs, after) => some (.cons (String.mk key) v fs, after)
                  | none => none
                else if d2 = '\x7d' then some (.cons (String.mk key) v .nil, rest4)
                else none
          else none
    else none
end

/-- The call `JSON.parse(text)`: the value, or the SyntaxError thrown. -/
def jsonParse (text : String) : Except JsError (JsVal ν) :=
  match parseValue (text.data.length + 1) (skipWs text.data) with
  | some (v, rest) =>
    match skipWs rest with
    | [] => .ok v
    | _ :: _ => .error (syntaxError "Unexpected token in JSON")
  | none => .error (syntaxError "Unexpected token in JSON")

/-! ## `src/App.tsx` -/

/-- The three `useState` cells of `App` (lines 22-24). -/
structure AppState where
  data : Option String
  loading : Bool
  error : Option String
deriving DecidableEq

/-- The state of the first render. -/
def AppState.initial : AppState := { data := none, loading := true, error := none }

/-- One call of a state setter. -/
inductive Update where
  | setData (text : Option String)
  | setLoading (flag : Bool)
  | setError (msg : Option String)
deriving DecidableEq

/-- The state after one setter call. -/
def AppState.apply (st : AppState) : Update → AppState
  | .setData text => { st with data := text }
  | .setLoading flag => { st with loading := flag }
  | .setError msg => { st with error := msg }

/-- The state after a sequence of setter calls. -/
def AppState.applyAll (st : AppState) (us : List Update) : AppState := us.foldl AppState.apply st

/-- The URL of line 29. -/
def todoUrl : String := "https://jsonplaceholder.typicode.com/todos/1"

/-- The expression `err.message || 'Unknown error'` of line 36. -/
def errorText (err : JsError) : String :=
  match err.message with
  | some m => if m.data.isEmpty then "Unknown error" else m
  | none => "Unknown error"

/-- The `.catch` callback, lines 35-38: its setter calls. -/
def onFailure (err : JsError) : List Update :=
  [.setError (some (errorText err)), .setLoading false]

/-- The second `.then` callback, lines 31-34: its setter calls, or the error
`JSON.stringify` throws before any of them. -/
def onSuccess (json : JsVal ν) : Except JsError (List Update) :=
  match jsonStringify json with
  | .error e => .error e
  | .ok text => .ok [.setData text, .setLoading false]

/-- The promise chain of lines 29-38 once the `fetch` promise has settled: the
setter calls it makes, in order (none while `response.json()` stays pending). -/
def chainUpdates (outcome : Settle (Response ν)) (s : Sys ν) : List Update × Sys ν :=
  match outcome with
  | .pending => ([], s)
  | .rejected err => (onFailure err, s)
  | .resolved response =>
    let s := s.push (.readJson response.copy)
    match response.json with
    | .pending => ([], s)
    | .rejected err => (onFailure err, s)
    | .resolved json =>
      match onSuccess json with
      | .ok us => (us, s)
      | .error err => (onFailure err, s)

/-- The effect of lines 26-39, run once on mount: every setter call it makes, in order. -/
def mountEffect (g : Runtime) (w : World ν) (s : Sys ν) : List Update × Sys ν :=
  let (outcome, s) := globalFetch g w [.str todoUrl] s
  let (us, s) := chainUpdates outcome s
  (.setLoading true :: .setError none :: us, s)

/-- The setter calls of the effect body itself, lines 27-28. -/
def effectUpdates : List Update := [.setLoading true, .setError none]

/-- The setter calls of the handler of the promise chain that runs (lines
31-34 or 35-38); none when the chain never gets to a handler. -/
def handlerUpdates (g : Runtime) (w : World ν) (s : Sys ν) : List Update :=
  (chainUpdates (globalFetch g w [.str todoUrl] s).1 (globalFetch g w [.str todoUrl] s).2).1

/-- The three conditional children of the root view (lines 44-75). -/
inductive View where
  /-- The text `Loading...`. -/
  | loading
  /-- The text `Error: ` followed by the error. -/
  | error (text : String)
  /-- The card, with the text after each of its four labels. -/
  | card (id title completed userId : String)

/-- The error React throws for a plain object among the children of an element. -/
def invalidChild : JsError :=
  { name := "Error", message := some "Objects are not valid as a React child", stack := none }

mutual
/-- The text React renders for a value placed among the children of a `Text`:
a string as it is, a number as its string, nothing for `null`, `undefined`
and booleans, the elements of an array one after the other; a plain object
makes React throw. -/
def childText : JsVal ν → Except JsError (List Char)
  | .undefined => .ok []
  | .null => .ok []
  | .bool _ => .ok []
  | .num x => .ok (JsNumber.toText x)
  | .nan => .ok "NaN".data
  | .bigint n => .ok (intDigits n)
  | .str s => .ok s.data
  | .arr xs => childrenText xs
  | .obj _ => .error invalidChild
/-- The text of the elements of an array child. -/
def childrenText : JsList ν → Except JsError (List Char)
  | .nil => .ok []
  | .cons v rest =>
    match childText v with
    | .error e => .error e
    | .ok t =>
      match childrenText rest with
      | .error e => .error e
      | .ok ts => .ok (t ++ ts)
end

/-- The function of lines 55-75 applied to a truthy `data`: the four property
reads of the JSX expression, then the children as React renders them. -/
def renderCard (ν : Type) [JsNumber ν] (data : String) : Except JsError View :=
  match (jsonParse data : Except JsError (JsVal ν)) with
  | .error e => .error e
  | .ok parsed =>
    match parsed.get "id" with
    | .error e => .error e
    | .ok id =>
      match parsed.get "title" with
      | .error e => .error e
      | .ok title =>
        match parsed.get "completed" with
        | .error e => .error e
        | .ok completed =>
          match parsed.get "userId" with
          | .error e => .error e
          | .ok userId =>
            match childText id with
            | .error e => .error e
            | .ok idText =>
              match childText title with
              | .error e => .error e
              | .ok titleText =>
                match childText userId with
                | .error e => .error e
                | .ok userIdText =>
                  .ok (.card (String.mk idText) (String.mk titleText)
                    (if completed.truthy then "Yes" else "No") (String.mk userIdText))

/-- The views the component returns for a state, in document order, or the
error thrown while rendering. -/
def render (ν : Type) [JsNumber ν] (st : AppState) : Except JsError (List View) :=
  let loadingPart : List View := if st.loading then [.loading] else []
  let errorPart : List View :=
    match st.error with
    | some msg => if msg.data.isEmpty then [] else [.error ("Error: " ++ msg)]
    | none => []
  match st.data with
  | none => .ok (loadingPart ++ errorPart)
  | some text =>
    if text.data.isEmpty then .ok (loadingPart ++ errorPart)
    else
      match renderCard ν text with
      | .ok card => .ok (loadingPart ++ errorPart ++ [card])
      | .error e => .error e

/-- How React applies the setter calls one callback makes. -/
inductive CommitMode where
  /-- Automatic batching (a root made by `createRoot`): one commit after the callback. -/
  | batched
  /-- A legacy root, for a callback React did not start: one commit after each setter call. -/
  | perCall
deriving DecidableEq

/-- The states passed through from `st`: `st` itself and the one after each setter call. -/
def statesFrom (st : AppState) : List Update → List AppState
  | [] => [st]
  | u :: us => st :: statesFrom (st.apply u) us

/-- The states React renders after `st` as callbacks it did not start (the
handlers of a promise chain) run one after the other; `st` comes first. -/
def committedStates (mode : CommitMode) (st : AppState) : List (List Update) → List AppState
  | [] => [st]
  | us :: rest =>
    match mode with
    | .batched => st :: committedStates mode (st.applyAll us) rest
    | .perCall => (statesFrom st us).dropLast ++ committedStates mode (st.applyAll us) rest

/-- The states the screen is rendered in: the first render, then the state
after the effect body (React runs the effect and commits its setter calls
together in either mode), then the commits of the handler of the promise chain. -/
def renderedStates (mode : CommitMode) (g : Runtime) (w : World ν) (s : Sys ν) : List AppState :=
  AppState.initial ::
    committedStates mode (AppState.initial.applyAll effectUpdates) [handlerUpdates g w s]

/-! ## Observations on a run -/

/-- The argument lists of the network-primitive calls among some events. -/
def fetchCalls : List (Event ν) → List (List (JsVal ν))
  | [] => []
  | .fetchCall args :: rest => args :: fetchCalls rest
  | _ :: rest => fetchCalls rest

/-- The records of the display calls among some events. -/
def displayed : List (Event ν) → List (DisplayRecord ν)
  | [] => []
  | .display r :: rest => r :: displayed rest
  | _ :: rest => displayed rest

/-- The body reads (`json()` and `text()` calls) among some events. -/
def bodyReads : List (Event ν) → List (Event ν)
  | [] => []
  | .readJson c :: rest => .readJson c :: bodyReads rest
  | .readText c :: rest => .readText c :: bodyReads rest
  | _ :: rest => bodyReads rest

/-- The calls of `display`, `log` and `clear` on the Reactotron client among some events. -/
def consoleOutput : List (Event ν) → List (Event ν)
  | [] => []
  | .display r :: rest => .display r :: consoleOutput rest
  | .log m :: rest => .log m :: consoleOutput rest
  | .clear :: rest => .clear :: consoleOutput rest
  | _ :: rest => consoleOutput rest

/-- The events of `after` that were not yet in `before`. -/
def Sys.since (before after : Sys ν) : List (Event ν) := after.trace.drop before.trace.length

/-- Property `k` of the object a display record carries as its value. -/
def DisplayRecord.field (r : DisplayRecord ν) (k : String) : Option (JsVal ν) :=
  match r.value with
  | .obj fs => fs.lookup k
  | _ => none

/-! ## Fixtures -/

/-- An integer literal read as an integer: an optional minus sign and a canonical decimal. -/
def intOfLiteral (lit : List Char) : Option Int :=
  match lit with
  | [] => none
  | c :: rest =>
    if c = '-' then
      match parseNat rest with
      | some (n, []) => some (-(n : Int))
      | _ => none
    else
      match parseNat (c :: rest) with
      | some (n, []) => some (n : Int)
      | _ => none

/-- The integers as numbers, to evaluate the definitions on concrete inputs:
a number type that satisfies `LawfulJsNumber` and agrees with the engine on
the integers a double holds exactly (magnitude up to `2^53`). -/
instance : JsNumber Int where
  toText := intDigits
  ofLiteral := intOfLiteral
  isZero := fun n => n == 0
  sub := fun later earlier => later - earlier

/-- The body of the scenario in the specification. -/
def todoBody : JsVal Int :=
  .obj (JsFields.ofList [
    ("id", .num 1), ("title", .str "t"), ("completed", .bool false), ("userId", .num 1)])

/-- A response carrying `todoBody` as JSON. -/
def todoResponse : Response Int :=
  { status := 200, statusText := "OK", ok := true
    headers := [("content-type", "application/json; charset=utf-8")]
    headersGetThrows := none, entriesThrows := none, cloneThrows := none
    json := .resolved todoBody
    text := .resolved "\x7b\"id\":1,\"title\":\"t\",\"completed\":false,\"userId\":1\x7d"
    copy := 0 }

/-- A world whose console never throws and whose network settles with `outcome`. -/
def quietWorld (outcome : Settle (Response Int)) : World Int :=
  { now := fun k => 1000 + 25 * (k : Int)
    timeString := fun _ => "12:00:00"
    displayThrows := fun _ => none
    fetch := fun _ => outcome }

/-- The rejection of the scenario in the specification. -/
def networkError : JsError := typeError "Network request failed"

/-- A response whose `clone()` throws. -/
def uncloneableResponse : Response Int :=
  { todoResponse with cloneThrows := some (typeError "Already read") }

/-- A response announcing JSON whose body is not JSON: `json()` rejects. -/
def badJsonResponse : Response Int :=
  { todoResponse with json := .rejected (syntaxError "Unexpected token < in JSON") }

/-- A response announcing JSON whose body is not JSON and whose header
enumeration throws. -/
def unlistableResponse : Response Int :=
  { badJsonResponse with entriesThrows := some (typeError "entries is not a function") }

/-- A JSON response whose `headers.get` throws. -/
def unreadableHeadersResponse : Response Int :=
  { todoResponse with headersGetThrows := some (typeError "get is not a function") }

/-- A world whose console accepts one record and throws on every later display call. -/
def droppedConsoleWorld (outcome : Settle (Response Int)) : World Int :=
  { quietWorld outcome with
    displayThrows := fun k => if k = 0 then none else some (typeError "socket closed") }

/-- The calls of prior error handlers among some events. -/
def handlerCalls : List (Event ν) → List (Nat × JsError × Bool)
  | [] => []
  | .handlerCall id e isFatal :: rest => (id, e, isFatal) :: handlerCalls rest
  | _ :: rest => handlerCalls rest

/-- An uncaught error. -/
def boom : JsError := { name := "Error", message := some "boom", stack := some "at App" }

/-- A plain-text response whose body stream fails while it is read. -/
def brokenTextResponse : Response Int :=
  { todoResponse with
    headers := [("content-type", "text/html")]
    json := .rejected (syntaxError "Unexpected token < in JSON")
    text := .rejected (typeError "Network request failed") }

/-- A plain-text response whose body stream never ends: the promises of
`json()` and `text()` never settle. -/
def endlessTextResponse : Response Int :=
  { todoResponse with
    headers := [("content-type", "text/event-stream")]
    json := .pending
    text := .pending }

/-- A JSON response whose body is the JSON text `0`. -/
def zeroResponse : Response Int :=
  { todoResponse with json := .resolved (.num 0), text := .resolved "0" }

/-- A JSON response whose body is the JSON text `null`. -/
def nullResponse : Response Int :=
  { todoResponse with json := .resolved .null, text := .resolved "null" }

/-- A body with the four properties whose title is an object. -/
def nestedTitleBody : JsVal Int :=
  .obj (JsFields.ofList [
    ("id", .num 1), ("title", .obj (JsFields.ofList [("en", .str "t")])),
    ("completed", .bool false), ("userId", .num 1)])

/-- A response carrying `nestedTitleBody` as JSON. -/
def nestedTitleResponse : Response Int :=
  { todoResponse with json := .resolved nestedTitleBody }

/-- The response of the scenario with a header enumeration that throws. -/
def unlistableTodoResponse : Response Int :=
  { todoResponse with entriesThrows := some (typeError "entries is not a function") }

/-! ## Auxiliary notions for the proofs -/

/-- Text that does not start with a number character. -/
def noNumberAhead : List Char → Bool
  | [] => true
  | c :: _ => !isNumberChar c

/-- No property name occurs twice. -/
def JsFields.keysDistinct : JsFields ν → Bool
  | .nil => true
  | .cons k _ rest => !rest.hasKey k && JsFields.keysDistinct rest

/-- No property name is an array index. -/
def JsFields.noIndexKeys : JsFields ν → Bool
  | .nil => true
  | .cons k _ rest => (arrayIndex k).isNone && JsFields.noIndexKeys rest

/-- The properties are in the order an object enumerates them: the array
indices from `lo` on, ascending, then the other names. -/
def JsFields.orderedFrom (lo : Nat) : JsFields ν → Bool
  | .nil => true
  | .cons k v rest =>
    match arrayIndex k with
    | some i => decide (lo ≤ i) && JsFields.orderedFrom (i + 1) rest
    | none => JsFields.noIndexKeys (.cons k v rest)

mutual
/-- The values `JSON.parse` (and so `response.json()`) can produce: no
`undefined`, `NaN` or BigInt anywhere, and objects whose property names are
distinct and in enumeration order. -/
def JsVal.isJson : JsVal ν → Bool
  | .undefined => false
  | .null => true
  | .bool _ => true
  | .num _ => true
  | .nan => false
  | .bigint _ => false
  | .str _ => true
  | .arr xs => JsList.allJson xs
  | .obj fs => JsFields.allJson fs && fs.keysDistinct && fs.orderedFrom 0
/-- Every element is such a value. -/
def JsList.allJson : JsList ν → Bool
  | .nil => true
  | .cons v rest => JsVal.isJson v && JsList.allJson rest
/-- Every property value is such a value. -/
def JsFields.allJson : JsFields ν → Bool
  | .nil => true
  | .cons _ v rest => JsVal.isJson v && JsFields.allJson rest
end

mutual
/-- The number of nested parser calls a value needs. -/
def JsVal.size : JsVal ν → Nat
  | .arr xs => JsList.size xs + 1
  | .obj fs => JsFields.size fs + 1
  | _ => 1
/-- The number of nested parser calls the elements need. -/
def JsList.size : JsList ν → Nat
  | .nil => 0
  | .cons v rest => JsVal.size v + JsList.size rest + 1
/-- The number of nested parser calls the members need. -/
def JsFields.size : JsFields ν → Nat
  | .nil => 0
  | .cons _ v rest => JsVal.size v + JsFields.size rest + 1
end

/-- Text that starts with a character that is neither white space nor a closing bracket. -/
def startsValue : List Char → Bool
  | [] => false
  | c :: _ => !isWs c && decide (c ≠ ']') && decide (c ≠ '\x7d')

mutual
/-- A value React can render among the children of a `Text`: no plain object in it. -/
def JsVal.renderable : JsVal ν → Bool
  | .obj _ => false
  | .arr xs => JsList.allRenderable xs
  | _ => true
/-- Every element is such a value. -/
def JsList.allRenderable : JsList ν → Bool
  | .nil => true
  | .cons v rest => JsVal.renderable v && JsList.allRenderable rest
end

/-- The three properties the card places among the children of a `Text`
(lines 60, 64 and 72) are values React can render. -/
def cardRenderable (body : JsVal ν) : Bool :=
  (body.getOpt "id").renderable && (body.getOpt "title").renderable &&
    (body.getOpt "userId").renderable

/-- Whether the inner `try` block of the wrapper completes for this response:
the body read it awaits on the clone, if it makes one, settles. -/
def bodyReadSettles (r : Response ν) : Bool := (readBody r r.cloned Sys.init).1.isSome

end RNBare

/-! # Theorems -/

namespace RNBare

set_option linter.unusedSectionVars false

variable {ν : Type} [JsNumber ν]


/-! ## Lemmas on the wrapper -/

theorem display_ok (w : World ν) (s : Sys ν) (r : DisplayRecord ν)
    (h : ∀ k, w.displayThrows k = none) :
    display w s r =
      (none, { s with displayCalls := s.displayCalls + 1, trace := s.trace ++ [.display r] }) := by
  simp [display, h]

theorem fetchCalls_append (xs ys : List (Event ν)) :
    fetchCalls (xs ++ ys) = fetchCalls xs ++ fetchCalls ys := by
  induction xs with
  | nil => rfl
  | cons e rest ih => cases e <;> simp [fetchCalls, ih]

theorem displayed_append (xs ys : List (Event ν)) :
    displayed (xs ++ ys) = displayed xs ++ displayed ys := by
  induction xs with
  | nil => rfl
  | cons e rest ih => cases e <;> simp [displayed, ih]

theorem bodyReads_append (xs ys : List (Event ν)) :
    bodyReads (xs ++ ys) = bodyReads xs ++ bodyReads ys := by
  induction xs with
  | nil => rfl
  | cons e rest ih => cases e <;> simp [bodyReads, ih]

theorem consoleOutput_append (xs ys : List (Event ν)) :
    consoleOutput (xs ++ ys) = consoleOutput xs ++ consoleOutput ys := by
  induction xs with
  | nil => rfl
  | cons e rest ih => cases e <;> simp [consoleOutput, ih]

theorem readBody_state (r rc : Response ν) (s : Sys ν) :
    readBody r rc s =
      ((readBody r rc Sys.init).1,
        { s with trace := s.trace ++ (readBody r rc Sys.init).2.trace }) := by
  unfold readBody
  cases r.headersGetThrows with
  | some e => simp [Sys.init]
  | none =>
    cases headerGet "content-type" r.headers with
    | none => simp [Sys.init]
    | some ct =>
      by_cases h1 : (!ct.data.isEmpty && includes ct.data "application/json".data) = true
      · simp only [h1, if_true]
        cases rc.json <;> simp [Sys.push, Sys.init]
      · simp only [h1]
        by_cases h2 : (!ct.data.isEmpty && includes ct.data "text/".data) = true
        · simp only [h2, if_true]
          cases rc.text <;> simp [Sys.push, Sys.init]
        · simp [h2, Sys.init]

theorem readBody_quiet (r rc : Response ν) :
    fetchCalls (readBody r rc Sys.init).2.trace = [] ∧
      displayed (readBody r rc Sys.init).2.trace = [] := by
  unfold readBody
  cases r.headersGetThrows with
  | some e => exact ⟨rfl, rfl⟩
  | none =>
    cases headerGet "content-type" r.headers with
    | none => exact ⟨rfl, rfl⟩
    | some ct =>
      by_cases h1 : (!ct.data.isEmpty && includes ct.data "application/json".data) = true
      · simp only [h1, if_true]
        cases rc.json <;> exact ⟨rfl, rfl⟩
      · simp only [h1]
        by_cases h2 : (!ct.data.isEmpty && includes ct.data "text/".data) = true
        · simp only [h2, if_true]
          cases rc.text <;> exact ⟨rfl, rfl⟩
        · simp only [h2]
          exact ⟨rfl, rfl⟩

theorem loadModule_dev_fetchPatched (g0 : Runtime) (s0 : Sys ν) :
    (loadModule true g0 s0).1.fetchPatched = true := by
  simp [loadModule, setGlobalHandler]

theorem loadModule_prod_fetchPatched (g0 : Runtime) (s0 : Sys ν) :
    (loadModule false g0 s0).1.fetchPatched = g0.fetchPatched := by
  simp [loadModule]

/-- The catch block, when its display call returns: one more event, the error
record, and a rejection with the error it was entered with. -/
theorem onRejected_ok (w : World ν) (url : JsVal ν) (t0 : ν) (e : JsError) (s : Sys ν)
    (hd : ∀ k, w.displayThrows k = none) :
    onRejected w url t0 e s =
      (.rejected e,
        { trace := s.trace ++
            [.display (errorRecord url (JsNumber.sub (w.now s.clockReads) t0) e
              (w.timeString s.stampReads))]
          clockReads := s.clockReads + 1
          stampReads := s.stampReads + 1
          displayCalls := s.displayCalls + 1 }) := by
  simp [onRejected, dateNow, timeStamp, display_ok _ _ _ hd]

/-- The `try` block after the primitive resolved, when `clone()` returns and
the awaited body read never settles: the call stays pending after the read. -/
theorem onResolved_pending (w : World ν) (url : JsVal ν) (t0 : ν) (r : Response ν) (s : Sys ν)
    (hc : r.cloneThrows = none) (hread : (readBody r r.cloned Sys.init).1 = none) :
    onResolved w url t0 r s =
      (.pending,
        { trace := s.trace ++ .clone :: (readBody r r.cloned Sys.init).2.trace
          clockReads := s.clockReads + 1
          stampReads := s.stampReads
          displayCalls := s.displayCalls }) := by
  unfold onResolved
  simp only [dateNow, hc, Sys.push]
  rw [readBody_state, hread]
  simp

/-- The `try` block after the primitive resolved, when no unguarded step
throws and the body read settles. -/
theorem onResolved_ok (w : World ν) (url : JsVal ν) (t0 : ν) (r : Response ν) (s : Sys ν)
    (data : JsVal ν)
    (hd : ∀ k, w.displayThrows k = none)
    (hc : r.cloneThrows = none) (he : r.entriesThrows = none)
    (hread : (readBody r r.cloned Sys.init).1 = some data) :
    onResolved w url t0 r s =
      (.resolved r,
        { trace := s.trace ++ .clone :: ((readBody r r.cloned Sys.init).2.trace ++
            [.display (responseRecord url (JsNumber.sub (w.now s.clockReads) t0) r data
              (w.timeString s.stampReads))])
          clockReads := s.clockReads + 1
          stampReads := s.stampReads + 1
          displayCalls := s.displayCalls + 1 }) := by
  unfold onResolved
  simp only [dateNow, hc, he, Sys.push, timeStamp]
  rw [readBody_state, hread]
  simp [display_ok _ _ _ hd]

/-- The `try` block after the primitive resolved, when the console works: the
events it adds and how it ends. -/
theorem onResolved_events (w : World ν) (url : JsVal ν) (t0 : ν) (r : Response ν) (s : Sys ν)
    (hd : ∀ k, w.displayThrows k = none) :
    ∃ mid, (onResolved w url t0 r s).2.trace = s.trace ++ mid ∧ fetchCalls mid = [] ∧
      (((onResolved w url t0 r s).1 = .pending ∧ displayed mid = []) ∨
       ((onResolved w url t0 r s).1 ≠ .pending ∧ ∃ fin, displayed mid = [fin] ∧
          (fin.name = "✅ FETCH RESPONSE" ∨ fin.name = "❌ FETCH ERROR"))) := by
  obtain ⟨hq1, hq2⟩ := readBody_quiet r r.cloned
  cases hc : r.cloneThrows with
  | some thrown =>
    have : onResolved w url t0 r s = onRejected w url t0 thrown
        ({ s with clockReads := s.clockReads + 1 }.push .clone) := by
      simp [onResolved, dateNow, hc]
    rw [this, onRejected_ok _ _ _ _ _ hd]
    exact ⟨[.clone, .display (errorRecord url (JsNumber.sub (w.now (s.clockReads + 1)) t0) thrown
        (w.timeString s.stampReads))], by simp [Sys.push], rfl,
      Or.inr ⟨by simp, errorRecord url (JsNumber.sub (w.now (s.clockReads + 1)) t0) thrown
        (w.timeString s.stampReads), rfl, Or.inr rfl⟩⟩
  | none =>
    cases hread : (readBody r r.cloned Sys.init).1 with
    | none =>
      rw [onResolved_pending w url t0 r s hc hread]
      exact ⟨.clone :: (readBody r r.cloned Sys.init).2.trace, rfl,
        by simp [fetchCalls, hq1], Or.inl ⟨rfl, by simp [displayed, hq2]⟩⟩
    | some data =>
      cases he : r.entriesThrows with
      | some thrown =>
        have : onResolved w url t0 r s = onRejected w url t0 thrown
            { trace := s.trace ++ .clone :: (readBody r r.cloned Sys.init).2.trace
              clockReads := s.clockReads + 1
              stampReads := s.stampReads
              displayCalls := s.displayCalls } := by
          unfold onResolved
          simp only [dateNow, hc, he, Sys.push]
          rw [readBody_state, hread]
          simp
        rw [this, onRejected_ok _ _ _ _ _ hd]
        refine ⟨.clone :: ((readBody r r.cloned Sys.init).2.trace ++
          [.display (errorRecord url (JsNumber.sub (w.now (s.clockReads + 1)) t0) thrown
            (w.timeString s.stampReads))]), by simp, ?_, Or.inr ⟨by simp,
          errorRecord url (JsNumber.sub (w.now (s.clockReads + 1)) t0) thrown
            (w.timeString s.stampReads), ?_, Or.inr rfl⟩⟩
        · simp [fetchCalls, fetchCalls_append, hq1]
        · simp [displayed, displayed_append, hq2]
      | none =>
        rw [onResolved_ok w url t0 r s data hd hc he hread]
        refine ⟨_, rfl, ?_, Or.inr ⟨by simp,
          responseRecord url (JsNumber.sub (w.now s.clockReads) t0) r data
            (w.timeString s.stampReads), ?_, Or.inl rfl⟩⟩
        · simp [fetchCalls, fetchCalls_append, hq1]
        · simp [displayed, displayed_append, hq2]


/-- The patched fetch up to the call of the primitive, when the console works. -/
theorem patchedFetch_unfold (w : World ν) (args : List (JsVal ν)) (s : Sys ν)
    (hd : ∀ k, w.displayThrows k = none) :
    patchedFetch w args s =
      match w.fetch args with
      | .pending =>
        (.pending,
          { trace := s.trace ++
              [.display (requestRecord (argAt args 0) (argAt args 1) (w.timeString s.stampReads)),
                .fetchCall args]
            clockReads := s.clockReads + 1
            stampReads := s.stampReads + 1
            displayCalls := s.displayCalls + 1 })
      | .rejected e =>
        onRejected w (argAt args 0) (w.now s.clockReads) e
          { trace := s.trace ++
              [.display (requestRecord (argAt args 0) (argAt args 1) (w.timeString s.stampReads)),
                .fetchCall args]
            clockReads := s.clockReads + 1
            stampReads := s.stampReads + 1
            displayCalls := s.displayCalls + 1 }
      | .resolved r =>
        onResolved w (argAt args 0) (w.now s.clockReads) r
          { trace := s.trace ++
              [.display (requestRecord (argAt args 0) (argAt args 1) (w.timeString s.stampReads)),
                .fetchCall args]
            clockReads := s.clockReads + 1
            stampReads := s.stampReads + 1
            displayCalls := s.displayCalls + 1 } := by
  unfold patchedFetch
  simp only [dateNow, timeStamp, display_ok _ _ _ hd, Sys.push, List.append_assoc,
    List.singleton_append]

/-- The events a call of the patched fetch adds, when every display call returns. -/
theorem patchedFetch_events (w : World ν) (args : List (JsVal ν)) (s : Sys ν)
    (hd : ∀ k, w.displayThrows k = none) :
    ∃ mid, Sys.since s (patchedFetch w args s).2 =
        .display (requestRecord (argAt args 0) (argAt args 1) (w.timeString s.stampReads))
          :: .fetchCall args :: mid ∧
      fetchCalls mid = [] ∧
      (((patchedFetch w args s).1 = .pending ∧ displayed mid = []) ∨
       ((patchedFetch w args s).1 ≠ .pending ∧ ∃ fin, displayed mid = [fin] ∧
          (fin.name = "✅ FETCH RESPONSE" ∨ fin.name = "❌ FETCH ERROR"))) := by
  rw [patchedFetch_unfold w args s hd]
  cases hf : w.fetch args with
  | pending =>
    exact ⟨[], by simp [Sys.since], rfl, Or.inl ⟨rfl, rfl⟩⟩
  | rejected e =>
    simp only [onRejected_ok _ _ _ _ _ hd]
    exact ⟨[.display (errorRecord (argAt args 0)
        (JsNumber.sub (w.now (s.clockReads + 1)) (w.now s.clockReads)) e
        (w.timeString (s.stampReads + 1)))], by simp [Sys.since], rfl,
      Or.inr ⟨by simp, errorRecord (argAt args 0)
        (JsNumber.sub (w.now (s.clockReads + 1)) (w.now s.clockReads)) e
        (w.timeString (s.stampReads + 1)), rfl, Or.inr rfl⟩⟩
  | resolved r =>
    simp only []
    obtain ⟨mid, h1, h2, h3⟩ := onResolved_events w (argAt args 0) (w.now s.clockReads) r
      (Sys.mk (s.trace ++
        [.display (requestRecord (argAt args 0) (argAt args 1) (w.timeString s.stampReads)),
          .fetchCall args]) (s.clockReads + 1) (s.stampReads + 1) (s.displayCalls + 1)) hd
    refine ⟨mid, ?_, h2, h3⟩
    simp only [List.append_assoc] at h1
    simp [Sys.since, h1]

/-- The run of the patched fetch when the primitive resolves, no unguarded
logging step throws and the body read settles. -/
theorem patchedFetch_resolved (w : World ν) (args : List (JsVal ν)) (s : Sys ν) (r : Response ν)
    (data : JsVal ν)
    (hf : w.fetch args = .resolved r)
    (hd : ∀ k, w.displayThrows k = none)
    (hc : r.cloneThrows = none) (he : r.entriesThrows = none)
    (hread : (readBody r r.cloned Sys.init).1 = some data) :
    patchedFetch w args s =
      (.resolved r,
        { trace := s.trace ++
            (.display (requestRecord (argAt args 0) (argAt args 1) (w.timeString s.stampReads))
              :: .fetchCall args :: .clone :: ((readBody r r.cloned Sys.init).2.trace ++
                [.display (responseRecord (argAt args 0)
                  (JsNumber.sub (w.now (s.clockReads + 1)) (w.now s.clockReads)) r
                  data (w.timeString (s.stampReads + 1)))]))
          clockReads := s.clockReads + 2
          stampReads := s.stampReads + 2
          displayCalls := s.displayCalls + 2 }) := by
  rw [patchedFetch_unfold w args s hd, hf]
  simp only []
  rw [onResolved_ok _ _ _ _ _ data hd hc he hread]
  simp

/-- The run of the patched fetch when the primitive rejects and the console works. -/
theorem patchedFetch_rejected (w : World ν) (args : List (JsVal ν)) (s : Sys ν) (e : JsError)
    (hf : w.fetch args = .rejected e)
    (hd : ∀ k, w.displayThrows k = none) :
    patchedFetch w args s =
      (.rejected e,
        { trace := s.trace ++
            [.display (requestRecord (argAt args 0) (argAt args 1) (w.timeString s.stampReads)),
              .fetchCall args,
              .display (errorRecord (argAt args 0)
                (JsNumber.sub (w.now (s.clockReads + 1)) (w.now s.clockReads)) e
                (w.timeString (s.stampReads + 1)))]
          clockReads := s.clockReads + 2
          stampReads := s.stampReads + 2
          displayCalls := s.displayCalls + 2 }) := by
  rw [patchedFetch_unfold w args s hd, hf]
  simp only []
  rw [onRejected_ok _ _ _ _ _ hd]
  simp

theorem bodyReadSettles_data (r : Response ν) (h : bodyReadSettles r = true) :
    ∃ data, (readBody r r.cloned Sys.init).1 = some data := by
  unfold bodyReadSettles at h
  cases hr : (readBody r r.cloned Sys.init).1 with
  | none => simp [hr] at h
  | some data => exact ⟨data, rfl⟩

/-- The inner `try` completes when the body reads of the response settle,
whether they succeed or fail. -/
theorem bodyReadSettles_of_settled (r : Response ν) (hj : r.json ≠ .pending)
    (ht : r.text ≠ .pending) : bodyReadSettles r = true := by
  unfold bodyReadSettles readBody
  cases r.headersGetThrows with
  | some e => rfl
  | none =>
    cases headerGet "content-type" r.headers with
    | none => rfl
    | some ct =>
      by_cases h1 : (!ct.data.isEmpty && includes ct.data "application/json".data) = true
      · simp only [h1, if_true, Response.cloned]
        cases hj2 : r.json with
        | pending => exact absurd hj2 hj
        | resolved v => rfl
        | rejected e => rfl
      · simp only [h1]
        by_cases h2 : (!ct.data.isEmpty && includes ct.data "text/".data) = true
        · simp only [h2, if_true, Response.cloned]
          cases ht2 : r.text with
          | pending => exact absurd ht2 ht
          | resolved v => rfl
          | rejected e => rfl
        · simp only [h2]
          rfl

/-! ## The patched fetch and the caller (C1, C2) -/

/-- C1, as stated, fails: no listed logging step fails (the console works,
`clone()` and the header enumeration return), the primitive resolves with a
response, and yet the caller never gets it, because `text()` of the clone,
which the wrapper awaits before it returns, never settles. -/
theorem endless_body_read_blocks_caller :
    (quietWorld (.resolved endlessTextResponse)).fetch [.str todoUrl]
      = .resolved endlessTextResponse ∧
    (∀ k, (quietWorld (.resolved endlessTextResponse)).displayThrows k = none) ∧
    endlessTextResponse.cloneThrows = none ∧ endlessTextResponse.entriesThrows = none ∧
    (globalFetch (loadModule true (Runtime.fresh none) (Sys.init : Sys Int)).1
        (quietWorld (.resolved endlessTextResponse)) [.str todoUrl] Sys.init).1
      = .pending :=
  ⟨rfl, fun _ => rfl, rfl, rfl, rfl⟩

/-- C1, amended: in development mode, when no display call throws, neither
`clone()` nor the header enumeration of a resolved response throws, and the
body read the wrapper awaits on the clone settles, `global.fetch` calls the
network primitive exactly once, with the argument list it was given, and
settles exactly as the primitive did: the same response object (not its
clone) or the same error. The body read settles, in particular, when neither
`json()` nor `text()` of the response stays pending for ever. (The primitive
is called exactly once, with that argument list, also without the assumption
on the body read.) -/
theorem patched_fetch_transparent (g0 : Runtime) (s0 : Sys ν) (w : World ν)
    (args : List (JsVal ν)) (s : Sys ν)
    (hd : ∀ k, w.displayThrows k = none)
    (hr : ∀ r, w.fetch args = .resolved r → r.cloneThrows = none ∧ r.entriesThrows = none) :
    fetchCalls (Sys.since s (globalFetch (loadModule true g0 s0).1 w args s).2) = [args] ∧
    ((∀ r, w.fetch args = .resolved r → bodyReadSettles r = true) →
      (globalFetch (loadModule true g0 s0).1 w args s).1 = w.fetch args) ∧
    ((∀ r, w.fetch args = .resolved r → r.json ≠ .pending ∧ r.text ≠ .pending) →
      (globalFetch (loadModule true g0 s0).1 w args s).1 = w.fetch args) := by
  have hmain : (∀ r, w.fetch args = .resolved r → bodyReadSettles r = true) →
      (globalFetch (loadModule true g0 s0).1 w args s).1 = w.fetch args := by
    simp only [globalFetch, loadModule_dev_fetchPatched, if_true]
    intro hread
    cases hf : w.fetch args with
    | pending => rw [patchedFetch_unfold w args s hd, hf]
    | rejected e => rw [patchedFetch_rejected w args s e hf hd]
    | resolved r =>
      obtain ⟨h1, h2⟩ := hr r hf
      obtain ⟨data, h3⟩ := bodyReadSettles_data r (hread r hf)
      rw [patchedFetch_resolved w args s r data hf hd h1 h2 h3]
  refine ⟨?_, hmain, fun h => hmain (fun r hf =>
    bodyReadSettles_of_settled r (h r hf).1 (h r hf).2)⟩
  simp only [globalFetch, loadModule_dev_fetchPatched, if_true]
  obtain ⟨mid, h1, h2, -⟩ := patchedFetch_events w args s hd
  rw [h1]
  simp [fetchCalls, h2]

theorem patched_fetch_transparent_witness :
    fetchCalls (Sys.since Sys.init
        (globalFetch (loadModule true (Runtime.fresh none) (Sys.init : Sys Int)).1
          (quietWorld (.resolved todoResponse)) [.str todoUrl] Sys.init).2)
      = [[.str todoUrl]] ∧
    (globalFetch (loadModule true (Runtime.fresh none) (Sys.init : Sys Int)).1
        (quietWorld (.resolved todoResponse)) [.str todoUrl] Sys.init).1
      = .resolved todoResponse :=
  have h := patched_fetch_transparent (Runtime.fresh none) (Sys.init : Sys Int)
    (quietWorld (.resolved todoResponse)) [.str todoUrl] Sys.init (fun _ => rfl)
    (fun r h => by
      have h2 : todoResponse = r := by
        simpa [quietWorld] using h
      subst h2
      exact ⟨rfl, rfl⟩)
  ⟨h.1, h.2.1 (fun r h => by
      have h2 : todoResponse = r := by
        simpa [quietWorld] using h
      subst h2
      rfl)⟩

/-- C2, as stated, fails: a response whose `clone()` throws makes the patched
`global.fetch` reject with the error of `clone()` although the primitive
resolved. -/
theorem clone_failure_reaches_caller :
    (quietWorld (.resolved uncloneableResponse)).fetch [.str todoUrl]
      = .resolved uncloneableResponse ∧
    (globalFetch (loadModule true (Runtime.fresh none) (Sys.init : Sys Int)).1
        (quietWorld (.resolved uncloneableResponse)) [.str todoUrl] Sys.init).1
      = .rejected (typeError "Already read") :=
  ⟨rfl, rfl⟩

/-- C2, amended: in development mode, when the primitive resolves with `r`, a
failure in reading the content-type header or in reading or parsing the
duplicated body never changes what the caller sees, provided `clone()`, the
header enumeration and the display calls do not throw: `global.fetch` does
not reject, and it resolves with `r` whenever the body read has failed or
succeeded (so whenever neither `json()` nor `text()` of the response stays
pending for ever). -/
theorem body_read_failure_harmless (g0 : Runtime) (s0 : Sys ν) (w : World ν)
    (args : List (JsVal ν)) (s : Sys ν) (r : Response ν)
    (hf : w.fetch args = .resolved r)
    (hd : ∀ k, w.displayThrows k = none)
    (hc : r.cloneThrows = none) (he : r.entriesThrows = none) :
    (∀ e, (globalFetch (loadModule true g0 s0).1 w args s).1 ≠ .rejected e) ∧
    (bodyReadSettles r = true →
      (globalFetch (loadModule true g0 s0).1 w args s).1 = .resolved r) ∧
    (r.json ≠ .pending → r.text ≠ .pending →
      (globalFetch (loadModule true g0 s0).1 w args s).1 = .resolved r) := by
  have hmain : (∀ e, (globalFetch (loadModule true g0 s0).1 w args s).1 ≠ .rejected e) ∧
      (bodyReadSettles r = true →
        (globalFetch (loadModule true g0 s0).1 w args s).1 = .resolved r) := by
    simp only [globalFetch, loadModule_dev_fetchPatched, if_true]
    cases hread : (readBody r r.cloned Sys.init).1 with
    | none =>
      rw [patchedFetch_unfold w args s hd, hf]
      simp only []
      rw [onResolved_pending _ _ _ _ _ hc hread]
      exact ⟨fun e h => (by cases h), fun h => (by simp [bodyReadSettles, hread] at h)⟩
    | some data =>
      rw [patchedFetch_resolved w args s r data hf hd hc he hread]
      exact ⟨fun e h => (by cases h), fun _ => rfl⟩
  exact ⟨hmain.1, hmain.2, fun hj ht => hmain.2 (bodyReadSettles_of_settled r hj ht)⟩

theorem body_read_failure_harmless_witness :
    (∀ e, (globalFetch (loadModule true (Runtime.fresh none) (Sys.init : Sys Int)).1
        (quietWorld (.resolved badJsonResponse)) [.str todoUrl] Sys.init).1 ≠ .rejected e) ∧
    (globalFetch (loadModule true (Runtime.fresh none) (Sys.init : Sys Int)).1
        (quietWorld (.resolved badJsonResponse)) [.str todoUrl] Sys.init).1
      = .resolved badJsonResponse :=
  have h := body_read_failure_harmless (Runtime.fresh none) Sys.init
    (quietWorld (.resolved badJsonResponse)) [.str todoUrl] Sys.init badJsonResponse
    rfl (fun _ => rfl) rfl rfl
  ⟨h.1, h.2.1 rfl⟩

/-! ## The record sequence (C4) -/

/-- C4, as stated, fails: when the console throws on the display call for the
response and again on the one for the error, the call settles (it rejects)
after emitting the request record and no terminal record at all. -/
theorem no_terminal_record_when_console_throws :
    (globalFetch (loadModule true (Runtime.fresh none) (Sys.init : Sys Int)).1
        (droppedConsoleWorld (.resolved todoResponse)) [.str todoUrl] Sys.init).1
      = .rejected (typeError "socket closed") ∧
    (displayed (globalFetch (loadModule true (Runtime.fresh none) (Sys.init : Sys Int)).1
        (droppedConsoleWorld (.resolved todoResponse)) [.str todoUrl] Sys.init).2.trace).map
        DisplayRecord.name
      = ["📡 FETCH REQUEST"] :=
  ⟨rfl, rfl⟩

/-- C4, amended: in development mode, provided the console display calls
themselves do not throw, every call of `global.fetch` that settles emits
exactly two display records: first one request record, before the network
primitive is invoked, and after it one terminal record, which is a response
record or an error record. This holds whatever `clone()`, the header reads
and the body reads of the response do. -/
theorem one_terminal_record (g0 : Runtime) (s0 : Sys ν) (w : World ν) (args : List (JsVal ν))
    (s : Sys ν)
    (hd : ∀ k, w.displayThrows k = none)
    (hs : (globalFetch (loadModule true g0 s0).1 w args s).1 ≠ .pending) :
    ∃ req fin rest,
      Sys.since s (globalFetch (loadModule true g0 s0).1 w args s).2
        = .display req :: .fetchCall args :: rest ∧
      displayed (Sys.since s (globalFetch (loadModule true g0 s0).1 w args s).2) = [req, fin] ∧
      req.name = "📡 FETCH REQUEST" ∧
      (fin.name = "✅ FETCH RESPONSE" ∨ fin.name = "❌ FETCH ERROR") := by
  simp only [globalFetch, loadModule_dev_fetchPatched, if_true] at hs ⊢
  obtain ⟨mid, h1, -, h4⟩ := patchedFetch_events w args s hd
  rcases h4 with ⟨hp, -⟩ | ⟨-, fin, hfin, hname⟩
  · exact absurd hp hs
  · refine ⟨_, fin, mid, h1, ?_, rfl, hname⟩
    rw [h1]
    simp [displayed, hfin]

theorem one_terminal_record_witness :
    ∃ req fin rest,
      Sys.since Sys.init (globalFetch (loadModule true (Runtime.fresh none) (Sys.init : Sys Int)).1
          (quietWorld (.rejected networkError)) [.str todoUrl] Sys.init).2
        = .display req :: .fetchCall [.str todoUrl] :: rest ∧
      displayed (Sys.since Sys.init (globalFetch (loadModule true (Runtime.fresh none) (Sys.init : Sys Int)).1
          (quietWorld (.rejected networkError)) [.str todoUrl] Sys.init).2) = [req, fin] ∧
      req.name = "📡 FETCH REQUEST" ∧
      (fin.name = "✅ FETCH RESPONSE" ∨ fin.name = "❌ FETCH ERROR") :=
  one_terminal_record (Runtime.fresh none) Sys.init (quietWorld (.rejected networkError))
    [.str todoUrl] Sys.init (fun _ => rfl) (by
      intro h
      have h2 : (Settle.rejected networkError : Settle (Response Int)) = .pending := h
      cases h2)


/-! ## The global error handler (C3) -/

/-- C3 fails on the code. With handler 7 registered before the module loads in
development mode, reporting the uncaught error `boom` as fatal does emit the
one record for it, but no prior handler is invoked: line 91 captured the
method `setGlobalHandler`, not the handler that was registered, so the
forwarding step of line 105 stores the error object in the handler slot, and
the next uncaught error finds a slot that is not a function. -/
theorem global_handler_forwards_to_setter :
    (loadModule true (Runtime.fresh (some (.priorHandler 7))) (Sys.init : Sys Int)).1.errorSlot
      = some .installedHandler ∧
    displayed (reportError (quietWorld .pending) boom true
        (loadModule true (Runtime.fresh (some (.priorHandler 7))) (Sys.init : Sys Int)).1 Sys.init).2.2.trace
      = [globalErrorRecord boom true] ∧
    handlerCalls (reportError (quietWorld .pending) boom true
        (loadModule true (Runtime.fresh (some (.priorHandler 7))) (Sys.init : Sys Int)).1 Sys.init).2.2.trace
      = [] ∧
    (reportError (quietWorld .pending) boom true
        (loadModule true (Runtime.fresh (some (.priorHandler 7))) (Sys.init : Sys Int)).1 Sys.init).2.1.errorSlot
      = some (.errorObject boom) ∧
    (reportError (quietWorld .pending) boom false
        (reportError (quietWorld .pending) boom true
          (loadModule true (Runtime.fresh (some (.priorHandler 7))) (Sys.init : Sys Int)).1 Sys.init).2.1
        Sys.init).1
      = some (typeError "_globalHandler is not a function") :=
  ⟨rfl, rfl, rfl, rfl, rfl⟩

/-! ## Production mode (C5) -/

/-- C5: after the module has loaded with `__DEV__` false, `global.fetch` is
still the network primitive (a call returns what the primitive returns and
adds nothing but the call of the primitive), loading and calling emit no
`display`, `log` or `clear`, every method of `global.logger` and of
`console.tron` returns without any effect, and the error-handler slot is what
it was before the load. -/
theorem production_is_passthrough (slot : Option SlotVal) (s0 : Sys ν) (w : World ν)
    (args : List (JsVal ν)) (s : Sys ν) (m : LoggerMethod) (largs : List (JsVal ν)) (c : TronCall ν) :
    (loadModule false (Runtime.fresh slot) s0).1.fetchPatched = false ∧
    globalFetch (loadModule false (Runtime.fresh slot) s0).1 w args s = originalFetch w args s ∧
    (globalFetch (loadModule false (Runtime.fresh slot) s0).1 w args s).1 = w.fetch args ∧
    Sys.since s (globalFetch (loadModule false (Runtime.fresh slot) s0).1 w args s).2
      = [.fetchCall args] ∧
    consoleOutput (Sys.since s0 (loadModule false (Runtime.fresh slot) s0).2) = [] ∧
    loggerCall (loadModule false (Runtime.fresh slot) s0).1 w m largs s = some (none, s) ∧
    tronCall (loadModule false (Runtime.fresh slot) s0).1 w c s = some (none, s) ∧
    (loadModule false (Runtime.fresh slot) s0).1.errorSlot = slot ∧
    (loadModule false (Runtime.fresh slot) s0).1.originalErrorHandler = none := by
  refine ⟨rfl, rfl, rfl, ?_, ?_, rfl, rfl, rfl, rfl⟩
  · simp [globalFetch, loadModule, Runtime.fresh, originalFetch, Sys.since, Sys.push]
  · simp [loadModule, Sys.since, Sys.push, consoleOutput]


/-! ## Property order -/

theorem hasKey_append (k : String) (ys : JsFields ν) : ∀ xs : JsFields ν,
    (xs.append ys).hasKey k = (xs.hasKey k || ys.hasKey k)
  | .nil => by simp [JsFields.append, JsFields.hasKey]
  | .cons k2 v2 rest => by
    simp [JsFields.append, JsFields.hasKey, hasKey_append k ys rest, Bool.or_assoc]

theorem append_assoc_fields (ys zs : JsFields ν) : ∀ xs : JsFields ν,
    (xs.append ys).append zs = xs.append (ys.append zs)
  | .nil => rfl
  | .cons k v rest => by simp [JsFields.append, append_assoc_fields ys zs rest]

theorem append_nil_fields : ∀ xs : JsFields ν, xs.append .nil = xs
  | .nil => rfl
  | .cons k v rest => by simp [JsFields.append, append_nil_fields rest]

/-- A new property that is not an array index goes last. -/
theorem set_fresh_name (k : String) (v : JsVal ν) (fs : JsFields ν)
    (hk : fs.hasKey k = false) (hi : arrayIndex k = none) :
    fs.set k v = fs.append (.cons k v .nil) := by
  simp [JsFields.set, hk, hi]

/-- Assigning properties with distinct new names, none an array index, appends them. -/
theorem assignAll_names : ∀ (fs acc : JsFields ν),
    fs.noIndexKeys = true → fs.keysDistinct = true →
    (∀ k, fs.hasKey k = true → acc.hasKey k = false) →
    JsFields.assignAll acc fs = acc.append fs
  | .nil, acc, _, _, _ => by simp [JsFields.assignAll, append_nil_fields]
  | .cons k v rest, acc, hn, hd, hdis => by
    simp only [JsFields.keysDistinct, Bool.and_eq_true, Bool.not_eq_true'] at hd
    simp only [JsFields.noIndexKeys, Bool.and_eq_true, Option.isNone_iff_eq_none] at hn
    have hk : acc.hasKey k = false := hdis k (by simp [JsFields.hasKey])
    rw [JsFields.assignAll, set_fresh_name k v acc hk hn.1,
      assignAll_names rest _ hn.2 hd.2, append_assoc_fields]
    · rfl
    · intro k2 hk2
      rw [hasKey_append]
      have h1 := hdis k2 (by simp [JsFields.hasKey, hk2])
      have h2 : k ≠ k2 := by
        rintro rfl
        rw [hd.1] at hk2
        cases hk2
      simp [h1, JsFields.hasKey, h2]

/-- `withPrettySeparators` around an object literal with distinct names, none
an array index or one of the two separators: the literal between the separators. -/
theorem withPrettySeparators_names (label : String) (fs : JsFields ν)
    (hn : fs.noIndexKeys = true) (hd : fs.keysDistinct = true)
    (h1 : fs.hasKey "───────────────" = false) (h2 : fs.hasKey "─────────────── END" = false) :
    withPrettySeparators label fs =
      .obj (.cons "───────────────" (.str ("🚀 " ++ label ++ " START 🚀"))
        (fs.append (.cons "─────────────── END" (.str ("🏁 " ++ label ++ " END 🏁")) .nil))) := by
  unfold withPrettySeparators
  rw [assignAll_names fs _ hn hd]
  · rw [set_fresh_name _ _ _ _ (by decide)]
    · rfl
    · simp [JsFields.append, JsFields.hasKey, hasKey_append, h2]
  · intro k hk
    have : k ≠ "───────────────" := by
      rintro rfl
      rw [h1] at hk
      cases hk
    simp [JsFields.hasKey, Ne.symm this]

theorem errorRecord_value (url : JsVal ν) (d : ν) (e : JsError) (ts : String) :
    (errorRecord url d e ts).value =
      .obj (.cons "───────────────" (.str ("🚀 " ++ "FETCH ERROR" ++ " START 🚀"))
        ((JsFields.ofList [
          ("//", .str "--- ERROR DETAILS ---"),
          ("URL", url),
          ("Message", optStr e.message),
          ("Duration", .str (msText d)),
          ("Timestamp", .str ts)]).append
          (.cons "─────────────── END" (.str ("🏁 " ++ "FETCH ERROR" ++ " END 🏁")) .nil))) :=
  withPrettySeparators_names "FETCH ERROR" _ rfl rfl rfl rfl

theorem responseRecord_value (url : JsVal ν) (d : ν) (r : Response ν) (data : JsVal ν)
    (ts : String) :
    (responseRecord url d r data ts).value =
      .obj (.cons "───────────────" (.str ("🚀 " ++ "FETCH RESPONSE" ++ " START 🚀"))
        ((JsFields.ofList [
          ("//", .str "--- RESPONSE DETAILS ---"),
          ("URL", url),
          ("Status", .str (String.mk (JsNumber.toText r.status) ++ " " ++ r.statusText)),
          ("OK", .bool r.ok),
          ("Duration", .str (msText d)),
          ("Headers", formatForLog (.obj (objectFromEntries r.headers))),
          ("──── DATA ────", .str ""),
          ("Data", formatForLog data),
          ("Timestamp", .str ts)]).append
          (.cons "─────────────── END" (.str ("🏁 " ++ "FETCH RESPONSE" ++ " END 🏁")) .nil))) :=
  withPrettySeparators_names "FETCH RESPONSE" _ rfl rfl rfl rfl

theorem requestRecord_value (url config : JsVal ν) (ts : String) :
    (requestRecord url config ts).value =
      .obj (.cons "───────────────" (.str ("🚀 " ++ "FETCH REQUEST" ++ " START 🚀"))
        ((JsFields.ofList [
          ("//", .str "--- REQUEST DETAILS ---"),
          ("URL", url),
          ("Method", (config.getOpt "method").or (.str "GET")),
          ("Headers", formatForLog (config.getOpt "headers")),
          ("Body", formatForLog (config.getOpt "body")),
          ("Timestamp", .str ts)]).append
          (.cons "─────────────── END" (.str ("🏁 " ++ "FETCH REQUEST" ++ " END 🏁")) .nil))) :=
  withPrettySeparators_names "FETCH REQUEST" _ rfl rfl rfl rfl

theorem message_field_errorRecord (url : JsVal ν) (d : ν) (e : JsError) (ts : String) :
    (errorRecord url d e ts).field "Message" = some (optStr e.message) := by
  rw [DisplayRecord.field, errorRecord_value]
  rfl

theorem duration_field_errorRecord (url : JsVal ν) (d : ν) (e : JsError) (ts : String) :
    (errorRecord url d e ts).field "Duration" = some (.str (msText d)) := by
  rw [DisplayRecord.field, errorRecord_value]
  rfl

theorem data_field_responseRecord (url : JsVal ν) (d : ν) (r : Response ν) (data : JsVal ν)
    (ts : String) :
    (responseRecord url d r data ts).field "Data" = some (formatForLog data) := by
  rw [DisplayRecord.field, responseRecord_value]
  rfl

theorem body_field_requestRecord (url config : JsVal ν) (ts : String) :
    (requestRecord url config ts).field "Body" = some (formatForLog (config.getOpt "body")) := by
  rw [DisplayRecord.field, requestRecord_value]
  rfl

theorem headers_field_requestRecord (url config : JsVal ν) (ts : String) :
    (requestRecord url config ts).field "Headers" =
      some (formatForLog (config.getOpt "headers")) := by
  rw [DisplayRecord.field, requestRecord_value]
  rfl


/-! ## The inner `try` -/

theorem includes_nonempty (cs needle : List Char) (hn : needle ≠ [])
    (h : includes cs needle = true) : cs.isEmpty = false := by
  cases cs with
  | nil =>
    cases needle with
    | nil => exact absurd rfl hn
    | cons c rest => simp [includes] at h
  | cons c rest => rfl

/-- With a content-type that contains `application/json` the inner `try` calls
`json()` on the clone and nothing else. -/
theorem readBody_json (r rc : Response ν) (ct : String)
    (hg : r.headersGetThrows = none)
    (hct : headerGet "content-type" r.headers = some ct)
    (hj : includes ct.data "application/json".data = true) :
    readBody r rc Sys.init =
      ((match rc.json with
        | .resolved v => some v
        | .rejected _ => some .null
        | .pending => none), (Sys.init : Sys ν).push (.readJson rc.copy)) := by
  have hne := includes_nonempty _ _ (by decide) hj
  unfold readBody
  simp only [hg, hct, hj, hne, Bool.not_false, Bool.and_self, if_true]
  cases rc.json <;> rfl

/-- With a content-type that contains `text/` and not `application/json` the
inner `try` calls `text()` on the clone and nothing else. -/
theorem readBody_text (r rc : Response ν) (ct : String)
    (hg : r.headersGetThrows = none)
    (hct : headerGet "content-type" r.headers = some ct)
    (hj : includes ct.data "application/json".data = false)
    (ht : includes ct.data "text/".data = true) :
    readBody r rc Sys.init =
      ((match rc.text with
        | .resolved t => some (.str t)
        | .rejected _ => some .null
        | .pending => none), (Sys.init : Sys ν).push (.readText rc.copy)) := by
  have hne := includes_nonempty _ _ (by decide) ht
  unfold readBody
  simp only [hg, hct, hj, ht, hne, Bool.not_false, Bool.and_self, Bool.and_false,
    Bool.false_eq_true, if_true, if_false]
  cases rc.text <;> rfl

/-- Without a content-type that names JSON or text the inner `try` reads nothing. -/
theorem readBody_none (r rc : Response ν)
    (h : r.headersGetThrows ≠ none ∨ headerGet "content-type" r.headers = none ∨
      ∃ ct, headerGet "content-type" r.headers = some ct ∧
        includes ct.data "application/json".data = false ∧
        includes ct.data "text/".data = false) :
    readBody r rc Sys.init = (some .null, Sys.init) := by
  unfold readBody
  cases hg : r.headersGetThrows with
  | some e => rfl
  | none =>
    rcases h with h | h | ⟨ct, hct, hj, ht⟩
    · exact absurd hg h
    · simp [h]
    · simp [hct, hj, ht]

/-! ## A rejected request (C7) -/

theorem data_isEmpty_of_ne (m : String) (h : m ≠ "") : m.data.isEmpty = false := by
  cases m with
  | mk data =>
    cases data with
    | nil => exact absurd rfl h
    | cons c cs => rfl

theorem mountEffect_updates (g : Runtime) (w : World ν) (s : Sys ν) :
    (mountEffect g w s).1 =
      .setLoading true :: .setError none ::
        (chainUpdates (globalFetch g w [.str todoUrl] s).1 (globalFetch g w [.str todoUrl] s).2).1 := by
  simp [mountEffect]

theorem mountEffect_trace (g : Runtime) (w : World ν) (s : Sys ν) :
    (mountEffect g w s).2 =
      (chainUpdates (globalFetch g w [.str todoUrl] s).1 (globalFetch g w [.str todoUrl] s).2).2 := by
  simp [mountEffect]

theorem globalFetch_rejected (dev : Bool) (g0 : Runtime) (s0 : Sys ν) (w : World ν) (s : Sys ν)
    (args : List (JsVal ν)) (e : JsError)
    (hf : w.fetch args = .rejected e)
    (hd : ∀ k, w.displayThrows k = none) :
    (globalFetch (loadModule dev g0 s0).1 w args s).1 = .rejected e := by
  cases dev with
  | true =>
    simp only [globalFetch, loadModule_dev_fetchPatched, if_true]
    rw [patchedFetch_rejected w _ s e hf hd]
  | false =>
    simp only [globalFetch, loadModule_prod_fetchPatched]
    cases g0.fetchPatched with
    | true =>
      simp only [if_true]
      rw [patchedFetch_rejected w _ s e hf hd]
    | false => simp [originalFetch, hf]

/-- C7: when the primitive rejects with an error whose message is a non-empty
string `m`, then, with a console whose display calls return, in development
mode the wrapper emits, after the request record, an error record whose
Message is `m` and whose Duration is the second clock reading minus the first
in milliseconds, and (in development as in production mode) the screen ends
with loading false, data null and error `m`, rendering `Error: ` followed by
`m`; when the message is missing or empty the screen renders
`Error: Unknown error`. -/
theorem rejection_logged_and_shown (g0 : Runtime) (s0 : Sys ν) (w : World ν) (s : Sys ν)
    (e : JsError)
    (hf : w.fetch [.str todoUrl] = .rejected e)
    (hd : ∀ k, w.displayThrows k = none) :
    (∀ m, e.message = some m → m ≠ "" →
      (∃ fin, displayed (Sys.since s (mountEffect (loadModule true g0 s0).1 w s).2)
          = [requestRecord (.str todoUrl) .undefined (w.timeString s.stampReads), fin] ∧
        fin.name = "❌ FETCH ERROR" ∧
        fin.field "Message" = some (.str m) ∧
        fin.field "Duration"
          = some (.str (msText
              (JsNumber.sub (w.now (s.clockReads + 1)) (w.now s.clockReads))))) ∧
      ∀ dev : Bool,
        AppState.initial.applyAll (mountEffect (loadModule dev g0 s0).1 w s).1
          = { data := none, loading := false, error := some m } ∧
        render ν (AppState.initial.applyAll (mountEffect (loadModule dev g0 s0).1 w s).1)
          = .ok [.error ("Error: " ++ m)]) ∧
    ((e.message = none ∨ e.message = some "") →
      ∀ dev : Bool,
        render ν (AppState.initial.applyAll (mountEffect (loadModule dev g0 s0).1 w s).1)
          = .ok [.error "Error: Unknown error"]) := by
  have hus : ∀ dev : Bool, (mountEffect (loadModule dev g0 s0).1 w s).1
      = .setLoading true :: .setError none :: onFailure e := by
    intro dev
    rw [mountEffect_updates, globalFetch_rejected dev g0 s0 w s _ e hf hd]
    rfl
  constructor
  · intro m hm hne
    have hne2 := data_isEmpty_of_ne m hne
    refine ⟨⟨errorRecord (.str todoUrl)
      (JsNumber.sub (w.now (s.clockReads + 1)) (w.now s.clockReads)) e
      (w.timeString (s.stampReads + 1)), ?_, rfl, ?_, ?_⟩, ?_⟩
    · rw [mountEffect_trace]
      simp only [globalFetch, loadModule_dev_fetchPatched, if_true]
      rw [patchedFetch_rejected w _ s e hf hd]
      simp [chainUpdates, Sys.since, displayed, argAt]
    · rw [message_field_errorRecord, hm]
      rfl
    · rw [duration_field_errorRecord]
    · intro dev
      rw [hus dev]
      constructor
      · simp [AppState.applyAll, AppState.apply, AppState.initial, onFailure, errorText, hm, hne2]
      · simp [AppState.applyAll, AppState.apply, AppState.initial, onFailure, errorText, hm, hne2,
          render]
  · intro h dev
    rw [hus dev]
    rcases h with h | h
    · simp [AppState.applyAll, AppState.apply, AppState.initial, onFailure, errorText, h, render]
    · simp [AppState.applyAll, AppState.apply, AppState.initial, onFailure, errorText, h, render]

theorem rejection_logged_and_shown_witness :
    (∃ fin, displayed (Sys.since Sys.init
          (mountEffect (loadModule true (Runtime.fresh none) (Sys.init : Sys Int)).1
            (quietWorld (.rejected networkError)) Sys.init).2)
          = [requestRecord (.str todoUrl) .undefined "12:00:00", fin] ∧
        fin.name = "❌ FETCH ERROR" ∧
        fin.field "Message" = some (.str "Network request failed") ∧
        fin.field "Duration" = some (.str "25ms")) ∧
      ∀ dev : Bool,
        AppState.initial.applyAll
            (mountEffect (loadModule dev (Runtime.fresh none) (Sys.init : Sys Int)).1
              (quietWorld (.rejected networkError)) Sys.init).1
          = { data := none, loading := false, error := some "Network request failed" } ∧
        render Int (AppState.initial.applyAll
            (mountEffect (loadModule dev (Runtime.fresh none) (Sys.init : Sys Int)).1
              (quietWorld (.rejected networkError)) Sys.init).1)
          = .ok [.error "Error: Network request failed"] :=
  (rejection_logged_and_shown (Runtime.fresh none) Sys.init (quietWorld (.rejected networkError))
    Sys.init networkError rfl (fun _ => rfl)).1 "Network request failed" rfl (by decide)


/-! ## `JSON.parse` inverts `JSON.stringify`: numbers -/

theorem digitChar_toNat (d : Nat) (h : d ≤ 9) : (digitChar d).toNat = 48 + d := by
  interval_cases d <;> rfl

theorem isDigit_digitChar (d : Nat) (h : d ≤ 9) : isDigit (digitChar d) = true := by
  interval_cases d <;> rfl

theorem readDigits_digitChar (acc count d : Nat) (h : d ≤ 9) (rest : List Char) :
    readDigits acc count (digitChar d :: rest) = readDigits (acc * 10 + d) (count + 1) rest := by
  simp [readDigits, isDigit_digitChar d h, digitChar_toNat d h]

theorem natDigitsAux_spec (fuel : Nat) : ∀ n, n < fuel →
    ∃ d tail m, natDigitsAux fuel n = digitChar d :: tail ∧ d ≤ 9 ∧
      (d = 0 → n = 0 ∧ tail = []) ∧
      ∀ acc count rest, readDigits acc count (natDigitsAux fuel n ++ rest)
        = readDigits (acc * m + n) (count + tail.length + 1) rest := by
  induction fuel with
  | zero => intro n h; omega
  | succ fuel ih =>
    intro n h
    by_cases h10 : n < 10
    · refine ⟨n, [], 10, by simp [natDigitsAux, h10], by omega, fun h0 => ⟨h0, rfl⟩, ?_⟩
      intro acc count rest
      simp only [natDigitsAux, h10, if_true, List.singleton_append, List.length_nil, Nat.add_zero]
      exact readDigits_digitChar acc count n (by omega) rest
    · obtain ⟨d, tail, m, h1, h2, h3, h4⟩ := ih (n / 10) (by omega)
      refine ⟨d, tail ++ [digitChar (n % 10)], m * 10, ?_, h2, ?_, ?_⟩
      · simp [natDigitsAux, h10, h1]
      · intro h0
        have := (h3 h0).1
        omega
      · intro acc count rest
        simp only [natDigitsAux, h10, if_false, List.append_assoc, List.singleton_append]
        rw [h4, readDigits_digitChar _ _ _ (by omega)]
        congr 1
        · have := Nat.div_add_mod n 10
          ring_nf
          omega
        · simp; omega

theorem digitChar_eq_zero (d : Nat) (h : d ≤ 9) (h0 : digitChar d = '0') : d = 0 := by
  interval_cases d <;> first | rfl | (exact absurd h0 (by decide))

theorem parseNat_natDigits (n : Nat) : parseNat (natDigits n) = some (n, []) := by
  obtain ⟨d, tail, m, h1, h2, h3, h4⟩ := natDigitsAux_spec (n + 1) n (by omega)
  have h5 := h4 0 0 []
  simp only [List.append_nil] at h5
  unfold natDigits
  rw [h1] at h5 ⊢
  have h6 : readDigits (0 * m + n) (0 + tail.length + 1) [] = (0 * m + n, 0 + tail.length + 1, []) :=
    rfl
  rw [h6] at h5
  simp only [parseNat]
  rw [h5]
  simp only [Nat.zero_mul, Nat.zero_add]
  have hc : ¬ (digitChar d = '0' ∧ 1 < tail.length + 1) := by
    rintro ⟨hz, hlen⟩
    have := (h3 (digitChar_eq_zero d h2 hz)).2
    subst this
    simp at hlen
  rw [if_neg (by omega), if_neg hc]

theorem natDigits_digits (n : Nat) : ∀ c ∈ natDigits n, isDigit c = true := by
  unfold natDigits
  generalize n + 1 = fuel
  induction fuel generalizing n with
  | zero => intro c hc; simp [natDigitsAux] at hc
  | succ fuel ih =>
    intro c hc
    by_cases h10 : n < 10
    · simp only [natDigitsAux, h10, if_true, List.mem_singleton] at hc
      subst hc
      exact isDigit_digitChar n (by omega)
    · simp only [natDigitsAux, h10, if_false, List.mem_append, List.mem_singleton] at hc
      rcases hc with hc | hc
      · exact ih _ c hc
      · subst hc
        exact isDigit_digitChar _ (by omega)

/-! ## `JSON.parse` inverts `JSON.stringify`: strings and white space -/

theorem hexVal_hexChar (d : Nat) (h : d < 16) : hexVal (hexChar d) = some d := by
  interval_cases d <;> rfl

theorem char_eq_of_toNat (c : Char) (n : Nat) (h : c.toNat = n) : c = Char.ofNat n := by
  rw [← h]
  exact (Char.ofNat_toNat c).symm

theorem parseStringBody_escapeChar (c : Char) (text body after : List Char)
    (h : parseStringBody text = some (body, after)) :
    parseStringBody (escapeChar c ++ text) = some (c :: body, after) := by
  unfold escapeChar
  by_cases h1 : c = '"'
  · subst h1; rw [parseStringBody.eq_def]; simp [unescape, h]
  by_cases h2 : c = '\\'
  · subst h2; rw [parseStringBody.eq_def]; simp [unescape, h]
  by_cases h3 : c = '\n'
  · subst h3; rw [parseStringBody.eq_def]; simp [unescape, h]
  by_cases h4 : c = '\r'
  · subst h4; rw [parseStringBody.eq_def]; simp [unescape, h]
  by_cases h5 : c = '\t'
  · subst h5; rw [parseStringBody.eq_def]; simp [unescape, h]
  by_cases h6 : c.toNat = 8
  · have := char_eq_of_toNat c 8 h6
    subst this
    rw [parseStringBody.eq_def]; simp [unescape, h]
  by_cases h7 : c.toNat = 12
  · have := char_eq_of_toNat c 12 h7
    subst this
    rw [parseStringBody.eq_def]; simp [unescape, h]
  by_cases h8 : c.toNat < 32
  · simp only [h1, h2, h3, h4, h5, h6, h7, h8, if_true, if_false]
    have e1 := hexVal_hexChar (c.toNat / 16) (by omega)
    have e2 := hexVal_hexChar (c.toNat % 16) (by omega)
    have e0 : hexVal '0' = some 0 := rfl
    have e3 : Char.ofNat (((0 * 16 + 0) * 16 + c.toNat / 16) * 16 + c.toNat % 16) = c := by
      have : ((0 * 16 + 0) * 16 + c.toNat / 16) * 16 + c.toNat % 16 = c.toNat := by omega
      rw [this]
      exact Char.ofNat_toNat c
    simp only [Nat.zero_mul, Nat.zero_add] at e3
    rw [parseStringBody.eq_def]; simp [e0, e1, e2, h, e3]
  · simp only [h1, h2, h3, h4, h5, h6, h7, h8, if_false, List.singleton_append]
    rw [parseStringBody.eq_def]; simp [h1, h2, h8, h]

theorem parseStringBody_escapeChars (cs rest : List Char) :
    parseStringBody (escapeChars cs ++ '"' :: rest) = some (cs, rest) := by
  induction cs with
  | nil => rw [parseStringBody.eq_def]; simp [escapeChars]
  | cons c cs ih =>
    simp only [escapeChars, List.append_assoc]
    exact parseStringBody_escapeChar c _ cs rest ih

theorem skipWs_spaces (n : Nat) (text : List Char) : skipWs (spaces n ++ text) = skipWs text := by
  induction n with
  | zero => rfl
  | succ n ih => simp [spaces, skipWs, isWs, ih]

/-- Text that starts with a character other than white space. -/
theorem skipWs_of_head (c : Char) (text : List Char) (h : isWs c = false) :
    skipWs (c :: text) = c :: text := by
  simp [skipWs, h]

theorem skipWs_newline_spaces (n : Nat) (text : List Char) :
    skipWs ('\n' :: (spaces n ++ text)) = skipWs text := by
  simp [skipWs, isWs, skipWs_spaces]


/-! ## `JSON.parse` inverts `JSON.stringify`: values -/

theorem numberHead_facts (c : Char) (h : c = '-' ∨ isDigit c = true) :
    c ≠ 'n' ∧ c ≠ 't' ∧ c ≠ 'f' ∧ c ≠ '"' ∧ c ≠ '[' ∧ c ≠ '\x7b' ∧ isWs c = false ∧
      c ≠ ']' ∧ c ≠ '\x7d' := by
  rcases h with h | h
  · subst h; decide
  · simp only [isDigit, Bool.and_eq_true, decide_eq_true_eq] at h
    refine ⟨?_, ?_, ?_, ?_, ?_, ?_, ?_, ?_, ?_⟩ <;>
      first
      | (rintro rfl; revert h; decide)
      | (simp only [isWs, Bool.or_eq_false_iff, decide_eq_false_iff_not]
         refine ⟨⟨⟨?_, ?_⟩, ?_⟩, ?_⟩ <;> (rintro rfl; revert h; decide))


theorem noIndexKeys_orderedFrom : ∀ (fs : JsFields ν) (lo : Nat),
    fs.noIndexKeys = true → fs.orderedFrom lo = true
  | .nil, _, _ => rfl
  | .cons k v rest, lo, h => by
    have h1 : arrayIndex k = none := by
      simp only [JsFields.noIndexKeys, Bool.and_eq_true, Option.isNone_iff_eq_none] at h
      exact h.1
    simp only [JsFields.orderedFrom, h1]
    exact h

/-- A new array index above every property the object has goes last. -/
theorem insertIndex_last (i : Nat) (k : String) (v : JsVal ν) : ∀ acc : JsFields ν,
    (∀ k2, acc.hasKey k2 = true → ∃ j, arrayIndex k2 = some j ∧ j < i) →
    acc.insertIndex i k v = acc.append (.cons k v .nil)
  | .nil, _ => rfl
  | .cons k2 v2 rest, h => by
    obtain ⟨j, hj, hlt⟩ := h k2 (by simp [JsFields.hasKey])
    have := insertIndex_last i k v rest (fun k3 h3 => h k3 (by simp [JsFields.hasKey, h3]))
    simp [JsFields.insertIndex, hj, hlt, JsFields.append, this]

/-- Assigning properties that are new, distinct and already in enumeration
order appends them. -/
theorem assignAll_ordered : ∀ (fs acc : JsFields ν) (lo : Nat),
    fs.keysDistinct = true → (∀ k, fs.hasKey k = true → acc.hasKey k = false) →
    fs.orderedFrom lo = true →
    (∀ k, acc.hasKey k = true → ∃ j, arrayIndex k = some j ∧ j < lo) →
    JsFields.assignAll acc fs = acc.append fs
  | .nil, acc, _, _, _, _, _ => by simp [JsFields.assignAll, append_nil_fields]
  | .cons k v rest, acc, lo, hd, hdis, ho, hacc => by
    cases hi : arrayIndex k with
    | none =>
      have hn : (JsFields.cons k v rest).noIndexKeys = true := by
        simpa [JsFields.orderedFrom, hi] using ho
      exact assignAll_names _ acc hn hd hdis
    | some i =>
      simp only [JsFields.orderedFrom, hi, Bool.and_eq_true, decide_eq_true_eq] at ho
      simp only [JsFields.keysDistinct, Bool.and_eq_true, Bool.not_eq_true'] at hd
      have hk : acc.hasKey k = false := hdis k (by simp [JsFields.hasKey])
      have hset : acc.set k v = acc.append (.cons k v .nil) := by
        simp only [JsFields.set, hk, hi, Bool.false_eq_true, if_false]
        exact insertIndex_last i k v acc (fun k2 h2 => by
          obtain ⟨j, hj, hlt⟩ := hacc k2 h2
          exact ⟨j, hj, by omega⟩)
      rw [JsFields.assignAll, hset, assignAll_ordered rest _ (i + 1) hd.2 ?_ ho.2 ?_,
        append_assoc_fields]
      · rfl
      · intro k2 hk2
        rw [hasKey_append]
        have h1 := hdis k2 (by simp [JsFields.hasKey, hk2])
        have h2 : k ≠ k2 := by
          rintro rfl
          rw [hd.1] at hk2
          cases hk2
        simp [h1, JsFields.hasKey, h2]
      · intro k2 hk2
        rw [hasKey_append] at hk2
        simp only [JsFields.hasKey, Bool.or_false, Bool.or_eq_true, decide_eq_true_eq] at hk2
        rcases hk2 with hk2 | hk2
        · obtain ⟨j, hj, hlt⟩ := hacc k2 hk2
          exact ⟨j, hj, by omega⟩
        · subst hk2
          exact ⟨i, hi, by omega⟩

/-- The members of an object text that are distinct and in enumeration order
give an object with these properties in this order. -/
theorem assignAll_nil (fs : JsFields ν) (hd : fs.keysDistinct = true)
    (ho : fs.orderedFrom 0 = true) : JsFields.assignAll .nil fs = fs := by
  rw [assignAll_ordered fs .nil 0 hd (fun _ _ => rfl) ho (fun k hk => by cases hk)]
  rfl

theorem takeNumber_append : ∀ (lit rest : List Char),
    (∀ c ∈ lit, isNumberChar c = true) → noNumberAhead rest = true →
    takeNumber (lit ++ rest) = (lit, rest)
  | [], rest, _, h => by
    cases rest with
    | nil => rfl
    | cons c cs =>
      simp only [noNumberAhead, Bool.not_eq_true'] at h
      simp [takeNumber, h]
  | c :: cs, rest, hl, h => by
    have := takeNumber_append cs rest (fun d hd => hl d (List.mem_cons_of_mem _ hd)) h
    simp [takeNumber, hl c (List.mem_cons_self _ _), this]

theorem parseNumber_toText (hν : LawfulJsNumber ν) (x : ν) (rest : List Char)
    (h : noNumberAhead rest = true) :
    parseNumber (JsNumber.toText x ++ rest) = some (.num x, rest) := by
  simp [parseNumber, takeNumber_append _ _ (hν.toText_chars x) h, hν.literal_toText x]

theorem startsValue_cons (t : List Char) (h : startsValue t = true) :
    ∃ c tl, t = c :: tl ∧ isWs c = false ∧ c ≠ ']' ∧ c ≠ '\x7d' := by
  cases t with
  | nil => simp [startsValue] at h
  | cons c tl =>
    simp only [startsValue, Bool.and_eq_true, Bool.not_eq_true', decide_eq_true_eq] at h
    exact ⟨c, tl, rfl, h.1.1, h.1.2, h.2⟩

theorem skipWs_startsValue (t rest : List Char) (h : startsValue t = true) :
    skipWs (t ++ rest) = t ++ rest := by
  obtain ⟨c, tl, rfl, hws, -, -⟩ := startsValue_cons t h
  exact skipWs_of_head c _ hws

theorem parseValue_null (f : Nat) (rest : List Char) :
    parseValue (f + 1) ('n' :: 'u' :: 'l' :: 'l' :: rest) = some ((.null : JsVal ν), rest) := by
  simp [parseValue]

theorem parseValue_true (f : Nat) (rest : List Char) :
    parseValue (f + 1) ('t' :: 'r' :: 'u' :: 'e' :: rest) = some ((.bool true : JsVal ν), rest) := by
  simp [parseValue]

theorem parseValue_false (f : Nat) (rest : List Char) :
    parseValue (f + 1) ('f' :: 'a' :: 'l' :: 's' :: 'e' :: rest) = some ((.bool false : JsVal ν), rest) := by
  simp [parseValue]

theorem parseValue_str (f : Nat) (s : String) (rest : List Char) :
    parseValue (f + 1) (quote s ++ rest) = some ((.str s : JsVal ν), rest) := by
  have h := parseStringBody_escapeChars s.data rest
  simp [parseValue, quote, h]

theorem parseValue_num (hν : LawfulJsNumber ν) (f : Nat) (x : ν) (rest : List Char)
    (h : noNumberAhead rest = true) :
    parseValue (f + 1) (JsNumber.toText x ++ rest) = some (.num x, rest) := by
  obtain ⟨c, tl, hc, hhead⟩ := hν.toText_head x
  obtain ⟨h1, h2, h3, h4, h5, h6, -, -, -⟩ := numberHead_facts c hhead
  have hp := parseNumber_toText hν x rest h
  rw [hc] at hp ⊢
  simp only [List.cons_append] at hp ⊢
  simp [parseValue, h1, h2, h3, h4, h5, h6, hp]

theorem parseValue_arr_empty (f : Nat) (rest : List Char) :
    parseValue (f + 1) ('[' :: ']' :: rest) = some ((.arr .nil : JsVal ν), rest) := by
  simp [parseValue, skipWs, isWs]

theorem parseValue_obj_empty (f : Nat) (rest : List Char) :
    parseValue (f + 1) ('\x7b' :: '\x7d' :: rest) = some ((.obj .nil : JsVal ν), rest) := by
  simp [parseValue, skipWs, isWs, JsFields.assignAll]

theorem parseValue_arr (f n : Nat) (body tail after : List Char) (xs : JsList ν)
    (hs : startsValue body = true)
    (hp : parseElems f (body ++ tail) = some (xs, after)) :
    parseValue (f + 1) ('[' :: '\n' :: (spaces n ++ (body ++ tail))) = some (.arr xs, after) := by
  have h1 : skipWs ('\n' :: (spaces n ++ (body ++ tail))) = body ++ tail := by
    rw [skipWs_newline_spaces, skipWs_startsValue body tail hs]
  obtain ⟨c, tl, rfl, -, hc, -⟩ := startsValue_cons body hs
  simp only [List.cons_append] at h1 hp
  simp [parseValue, h1, hc, hp]

theorem parseValue_obj (f n : Nat) (body tail after : List Char) (fs : JsFields ν)
    (hs : startsValue body = true)
    (hp : parseMembers f (body ++ tail) = some (fs, after)) :
    parseValue (f + 1) ('\x7b' :: '\n' :: (spaces n ++ (body ++ tail)))
      = some (.obj (JsFields.assignAll .nil fs), after) := by
  have h1 : skipWs ('\n' :: (spaces n ++ (body ++ tail))) = body ++ tail := by
    rw [skipWs_newline_spaces, skipWs_startsValue body tail hs]
  obtain ⟨c, tl, rfl, -, -, hc⟩ := startsValue_cons body hs
  simp only [List.cons_append] at h1 hp
  simp [parseValue, h1, hc, hp]

theorem parseElems_last (f k : Nat) (t rest : List Char) (v : JsVal ν)
    (hp : parseValue f (t ++ '\n' :: (spaces k ++ ']' :: rest))
      = some (v, '\n' :: (spaces k ++ ']' :: rest))) :
    parseElems (f + 1) (t ++ '\n' :: (spaces k ++ ']' :: rest)) = some (.cons v .nil, rest) := by
  have h1 : skipWs ('\n' :: (spaces k ++ ']' :: rest)) = ']' :: rest := by
    rw [skipWs_newline_spaces, skipWs_of_head _ _ (by decide)]
  simp [parseElems, hp, h1]

theorem parseElems_more (f ind : Nat) (t body tail after : List Char) (v : JsVal ν) (xs : JsList ν)
    (hs : startsValue body = true)
    (hp : parseValue f (t ++ (',' :: '\n' :: spaces ind ++ (body ++ tail)))
      = some (v, ',' :: '\n' :: spaces ind ++ (body ++ tail)))
    (hq : parseElems f (body ++ tail) = some (xs, after)) :
    parseElems (f + 1) (t ++ (',' :: '\n' :: spaces ind ++ (body ++ tail)))
      = some (.cons v xs, after) := by
  have h1 : skipWs (',' :: '\n' :: spaces ind ++ (body ++ tail))
      = ',' :: '\n' :: spaces ind ++ (body ++ tail) := skipWs_of_head _ _ (by decide)
  have h2 : skipWs ('\n' :: spaces ind ++ (body ++ tail)) = body ++ tail := by
    have := skipWs_newline_spaces ind (body ++ tail)
    simp only [List.cons_append] at this ⊢
    rw [this, skipWs_startsValue body tail hs]
  simp only [List.cons_append] at h1 h2 hp ⊢
  simp [parseElems, hp, h1, h2, hq]


theorem member_text (key : String) (t tail : List Char) :
    (quote key ++ ':' :: ' ' :: t) ++ tail
      = '"' :: (escapeChars key.data ++ '"' :: ':' :: ' ' :: (t ++ tail)) := by
  simp [quote]

theorem skipWs_space_value (t tail : List Char) (hs : startsValue t = true) :
    skipWs (' ' :: (t ++ tail)) = t ++ tail := by
  have : skipWs (' ' :: (t ++ tail)) = skipWs (t ++ tail) := by simp [skipWs, isWs]
  rw [this, skipWs_startsValue t tail hs]

theorem parseMembers_last (f k : Nat) (key : String) (t rest : List Char) (v : JsVal ν)
    (hs : startsValue t = true)
    (hp : parseValue f (t ++ '\n' :: (spaces k ++ '\x7d' :: rest))
      = some (v, '\n' :: (spaces k ++ '\x7d' :: rest))) :
    parseMembers (f + 1) ((quote key ++ ':' :: ' ' :: t) ++ '\n' :: (spaces k ++ '\x7d' :: rest))
      = some (.cons key v .nil, rest) := by
  rw [member_text]
  have h0 := parseStringBody_escapeChars key.data
    (':' :: ' ' :: (t ++ '\n' :: (spaces k ++ '\x7d' :: rest)))
  have h1 : skipWs ('\n' :: (spaces k ++ '\x7d' :: rest)) = '\x7d' :: rest := by
    rw [skipWs_newline_spaces, skipWs_of_head _ _ (by decide)]
  have h2 := skipWs_space_value t ('\n' :: (spaces k ++ '\x7d' :: rest)) hs
  have h3 : skipWs (':' :: ' ' :: (t ++ '\n' :: (spaces k ++ '\x7d' :: rest)))
      = ':' :: ' ' :: (t ++ '\n' :: (spaces k ++ '\x7d' :: rest)) :=
    skipWs_of_head _ _ (by decide)
  simp [parseMembers, h0, h3, h2, hp, h1]

theorem parseMembers_more (f ind : Nat) (key : String) (t body tail after : List Char)
    (v : JsVal ν) (fs : JsFields ν)
    (hs : startsValue t = true) (hb : startsValue body = true)
    (hp : parseValue f (t ++ (',' :: '\n' :: spaces ind ++ (body ++ tail)))
      = some (v, ',' :: '\n' :: spaces ind ++ (body ++ tail)))
    (hq : parseMembers f (body ++ tail) = some (fs, after)) :
    parseMembers (f + 1)
        ((quote key ++ ':' :: ' ' :: t) ++ (',' :: '\n' :: spaces ind ++ (body ++ tail)))
      = some (.cons key v fs, after) := by
  rw [member_text]
  have h0 := parseStringBody_escapeChars key.data
    (':' :: ' ' :: (t ++ (',' :: '\n' :: spaces ind ++ (body ++ tail))))
  have h1 : skipWs (',' :: '\n' :: spaces ind ++ (body ++ tail))
      = ',' :: '\n' :: spaces ind ++ (body ++ tail) := skipWs_of_head _ _ (by decide)
  have h2 := skipWs_space_value t (',' :: '\n' :: spaces ind ++ (body ++ tail)) hs
  have h3 : skipWs (':' :: ' ' :: (t ++ (',' :: '\n' :: spaces ind ++ (body ++ tail))))
      = ':' :: ' ' :: (t ++ (',' :: '\n' :: spaces ind ++ (body ++ tail))) :=
    skipWs_of_head _ _ (by decide)
  have h4 : skipWs ('\n' :: spaces ind ++ (body ++ tail)) = body ++ tail := by
    have := skipWs_newline_spaces ind (body ++ tail)
    simp only [List.cons_append] at this ⊢
    rw [this, skipWs_startsValue body tail hb]
  simp only [List.cons_append] at h0 h1 h2 h3 h4 hp ⊢
  simp [parseMembers, h0, h3, h2, hp, h1, h4, hq]

theorem spaces_length (n : Nat) : (spaces n).length = n := by
  induction n with
  | zero => rfl
  | succ n ih => simp [spaces, ih]

theorem toText_startsValue (hν : LawfulJsNumber ν) (x : ν) :
    startsValue (JsNumber.toText x) = true := by
  obtain ⟨c, tl, hc, hhead⟩ := hν.toText_head x
  obtain ⟨-, -, -, -, -, -, h7, h8, h9⟩ := numberHead_facts c hhead
  rw [hc]
  simp [startsValue, h7, h8, h9]

theorem toText_length (hν : LawfulJsNumber ν) (x : ν) : 1 ≤ (JsNumber.toText x).length := by
  obtain ⟨c, tl, hc, -⟩ := hν.toText_head x
  rw [hc]
  simp

theorem layout_cons (ind : Nat) (opening closing : Char) (p : List Char)
    (ps : List (List Char)) (rest : List Char) :
    layout ind opening closing (p :: ps) ++ rest
      = opening :: '\n' :: (spaces (ind + 2) ++
          (joinSep (',' :: '\n' :: spaces (ind + 2)) (p :: ps) ++
            '\n' :: (spaces ind ++ closing :: rest))) := by
  simp [layout]

theorem layout_length (ind : Nat) (opening closing : Char) (p : List Char)
    (ps : List (List Char)) :
    (joinSep (',' :: '\n' :: spaces (ind + 2)) (p :: ps)).length + 2
      ≤ (layout ind opening closing (p :: ps)).length := by
  simp [layout]
  omega

mutual
theorem roundtrip_value (hν : LawfulJsNumber ν) : ∀ (v : JsVal ν) (ind : Nat), v.isJson = true →
    ∃ t, serialize ind v = .ok (some t) ∧ startsValue t = true ∧ v.size ≤ t.length ∧
      ∀ fuel rest, v.size ≤ fuel → noNumberAhead rest = true →
        parseValue fuel (t ++ rest) = some (v, rest)
  | .undefined, _, h => by simp [JsVal.isJson] at h
  | .nan, _, h => by simp [JsVal.isJson] at h
  | .bigint _, _, h => by simp [JsVal.isJson] at h
  | .null, _, _ => by
    refine ⟨_, rfl, rfl, by simp [JsVal.size], ?_⟩
    intro fuel rest hf _
    obtain ⟨f, rfl⟩ : ∃ f, fuel = f + 1 := ⟨fuel - 1, by simp [JsVal.size] at hf; omega⟩
    exact parseValue_null f rest
  | .bool true, _, _ => by
    refine ⟨_, rfl, rfl, by simp [JsVal.size], ?_⟩
    intro fuel rest hf _
    obtain ⟨f, rfl⟩ : ∃ f, fuel = f + 1 := ⟨fuel - 1, by simp [JsVal.size] at hf; omega⟩
    exact parseValue_true f rest
  | .bool false, _, _ => by
    refine ⟨_, rfl, rfl, by simp [JsVal.size], ?_⟩
    intro fuel rest hf _
    obtain ⟨f, rfl⟩ : ∃ f, fuel = f + 1 := ⟨fuel - 1, by simp [JsVal.size] at hf; omega⟩
    exact parseValue_false f rest
  | .num x, _, _ => by
    refine ⟨_, rfl, toText_startsValue hν x, by simpa [JsVal.size] using toText_length hν x, ?_⟩
    intro fuel rest hf hr
    obtain ⟨f, rfl⟩ : ∃ f, fuel = f + 1 := ⟨fuel - 1, by simp [JsVal.size] at hf; omega⟩
    exact parseValue_num hν f x rest hr
  | .str s, _, _ => by
    refine ⟨_, rfl, rfl, by simp [JsVal.size, quote], ?_⟩
    intro fuel rest hf _
    obtain ⟨f, rfl⟩ : ∃ f, fuel = f + 1 := ⟨fuel - 1, by simp [JsVal.size] at hf; omega⟩
    exact parseValue_str f s rest
  | .arr .nil, ind, _ => by
    refine ⟨_, rfl, rfl, by simp [JsVal.size, JsList.size, layout], ?_⟩
    intro fuel rest hf _
    obtain ⟨f, rfl⟩ : ∃ f, fuel = f + 1 := ⟨fuel - 1, by simp [JsVal.size] at hf; omega⟩
    exact parseValue_arr_empty f rest
  | .arr (.cons v r), ind, h => by
    obtain ⟨parts, hser, hne, hsv, hsz, hparse⟩ :=
      roundtrip_elems hν (.cons v r) (ind + 2) (by simpa [JsVal.isJson] using h) (by simp)
    obtain ⟨p, ps, rfl⟩ : ∃ p ps, parts = p :: ps := by
      cases parts with
      | nil => exact absurd rfl hne
      | cons p ps => exact ⟨p, ps, rfl⟩
    refine ⟨layout ind '[' ']' (p :: ps), by simp [serialize, hser], rfl, ?_, ?_⟩
    · have := layout_length ind '[' ']' p ps
      simp only [JsVal.size]
      omega
    · intro fuel rest hf _
      obtain ⟨f, rfl⟩ : ∃ f, fuel = f + 1 := ⟨fuel - 1, by simp [JsVal.size] at hf; omega⟩
      rw [layout_cons]
      exact parseValue_arr f (ind + 2) _ _ rest _ hsv
        (hparse f ind rest (by simp [JsVal.size] at hf; omega))
  | .obj .nil, ind, _ => by
    refine ⟨_, rfl, rfl, by simp [JsVal.size, JsFields.size, layout], ?_⟩
    intro fuel rest hf _
    obtain ⟨f, rfl⟩ : ∃ f, fuel = f + 1 := ⟨fuel - 1, by simp [JsVal.size] at hf; omega⟩
    exact parseValue_obj_empty f rest
  | .obj (.cons k v r), ind, h => by
    simp only [JsVal.isJson, Bool.and_eq_true] at h
    obtain ⟨parts, hser, hne, hsv, hsz, hparse⟩ :=
      roundtrip_members hν (.cons k v r) (ind + 2) h.1.1 (by simp)
    obtain ⟨p, ps, rfl⟩ : ∃ p ps, parts = p :: ps := by
      cases parts with
      | nil => exact absurd rfl hne
      | cons p ps => exact ⟨p, ps, rfl⟩
    refine ⟨layout ind '\x7b' '\x7d' (p :: ps), by simp [serialize, hser], rfl, ?_, ?_⟩
    · have := layout_length ind '\x7b' '\x7d' p ps
      simp only [JsVal.size]
      omega
    · intro fuel rest hf _
      obtain ⟨f, rfl⟩ : ∃ f, fuel = f + 1 := ⟨fuel - 1, by simp [JsVal.size] at hf; omega⟩
      rw [layout_cons]
      have := parseValue_obj f (ind + 2) _ _ rest _ hsv
        (hparse f ind rest (by simp [JsVal.size] at hf; omega))
      rw [assignAll_nil _ h.1.2 h.2] at this
      exact this
theorem roundtrip_elems (hν : LawfulJsNumber ν) : ∀ (xs : JsList ν) (ind : Nat), xs.allJson = true → xs ≠ .nil →
    ∃ parts, serializeElems ind xs = .ok parts ∧ parts ≠ [] ∧
      startsValue (joinSep (',' :: '\n' :: spaces ind) parts) = true ∧
      xs.size ≤ (joinSep (',' :: '\n' :: spaces ind) parts).length + 1 ∧
      ∀ fuel k rest, xs.size ≤ fuel →
        parseElems fuel (joinSep (',' :: '\n' :: spaces ind) parts ++
          '\n' :: (spaces k ++ ']' :: rest)) = some (xs, rest)
  | .nil, _, _, hne => absurd rfl hne
  | .cons v .nil, ind, h, _ => by
    simp only [JsList.allJson, Bool.and_true] at h
    obtain ⟨t, hser, hsv, hsz, hparse⟩ := roundtrip_value hν v ind h
    refine ⟨[t], by simp [serializeElems, hser], by simp, by simpa [joinSep] using hsv, ?_, ?_⟩
    · simp [JsList.size, joinSep]; omega
    · intro fuel k rest hf
      obtain ⟨f, rfl⟩ : ∃ f, fuel = f + 1 := ⟨fuel - 1, by simp [JsList.size] at hf; omega⟩
      simp only [joinSep]
      exact parseElems_last f k t rest v
        (hparse f _ (by simp [JsList.size] at hf; omega) rfl)
  | .cons v (.cons v2 r), ind, h, _ => by
    simp only [JsList.allJson, Bool.and_eq_true] at h
    obtain ⟨t, hser, hsv, hsz, hparse⟩ := roundtrip_value hν v ind h.1
    obtain ⟨parts, hser2, hne2, hsv2, hsz2, hparse2⟩ :=
      roundtrip_elems hν (.cons v2 r) ind (by simp [JsList.allJson, h.2]) (by simp)
    obtain ⟨p, ps, rfl⟩ : ∃ p ps, parts = p :: ps := by
      cases parts with
      | nil => exact absurd rfl hne2
      | cons p ps => exact ⟨p, ps, rfl⟩
    obtain ⟨c, tl, rfl, hc1, hc2, hc3⟩ := startsValue_cons t hsv
    refine ⟨(c :: tl) :: p :: ps, ?_, by simp, ?_, ?_, ?_⟩
    · simp only [serializeElems] at hser2 ⊢
      simp [hser, hser2]
    · simp [joinSep, startsValue, hc1, hc2, hc3]
    · simp only [JsList.size, joinSep, List.length_append, List.length_cons] at hsz2 hsz ⊢
      omega
    · intro fuel k rest hf
      obtain ⟨f, rfl⟩ : ∃ f, fuel = f + 1 := ⟨fuel - 1, by simp [JsList.size] at hf; omega⟩
      have hq := hparse2 f k rest (by simp [JsList.size] at hf ⊢; omega)
      have hp := hparse f (',' :: '\n' :: spaces ind ++
        (joinSep (',' :: '\n' :: spaces ind) (p :: ps) ++ '\n' :: (spaces k ++ ']' :: rest)))
        (by simp [JsList.size] at hf; omega) rfl
      have := parseElems_more f ind (c :: tl) _ _ rest v _ hsv2 hp hq
      simpa [joinSep] using this
theorem roundtrip_members (hν : LawfulJsNumber ν) : ∀ (fs : JsFields ν) (ind : Nat), fs.allJson = true → fs ≠ .nil →
    ∃ parts, serializeMembers ind fs = .ok parts ∧ parts ≠ [] ∧
      startsValue (joinSep (',' :: '\n' :: spaces ind) parts) = true ∧
      fs.size ≤ (joinSep (',' :: '\n' :: spaces ind) parts).length + 1 ∧
      ∀ fuel k rest, fs.size ≤ fuel →
        parseMembers fuel (joinSep (',' :: '\n' :: spaces ind) parts ++
          '\n' :: (spaces k ++ '\x7d' :: rest)) = some (fs, rest)
  | .nil, _, _, hne => absurd rfl hne
  | .cons key v .nil, ind, h, _ => by
    simp only [JsFields.allJson, Bool.and_true] at h
    obtain ⟨t, hser, hsv, hsz, hparse⟩ := roundtrip_value hν v ind h
    refine ⟨[quote key ++ ':' :: ' ' :: t], by simp [serializeMembers, hser], by simp,
      by simp [joinSep, quote, startsValue, isWs], ?_, ?_⟩
    · simp [JsFields.size, joinSep]; omega
    · intro fuel k rest hf
      obtain ⟨f, rfl⟩ : ∃ f, fuel = f + 1 := ⟨fuel - 1, by simp [JsFields.size] at hf; omega⟩
      simp only [joinSep]
      exact parseMembers_last f k key t rest v hsv
        (hparse f _ (by simp [JsFields.size] at hf; omega) rfl)
  | .cons key v (.cons key2 v2 r), ind, h, _ => by
    simp only [JsFields.allJson, Bool.and_eq_true] at h
    obtain ⟨t, hser, hsv, hsz, hparse⟩ := roundtrip_value hν v ind h.1
    obtain ⟨parts, hser2, hne2, hsv2, hsz2, hparse2⟩ :=
      roundtrip_members hν (.cons key2 v2 r) ind (by simp [JsFields.allJson, h.2]) (by simp)
    obtain ⟨p, ps, rfl⟩ : ∃ p ps, parts = p :: ps := by
      cases parts with
      | nil => exact absurd rfl hne2
      | cons p ps => exact ⟨p, ps, rfl⟩
    refine ⟨(quote key ++ ':' :: ' ' :: t) :: p :: ps, ?_, by simp, ?_, ?_, ?_⟩
    · simp only [serializeMembers] at hser2 ⊢
      simp [hser, hser2]
    · simp [joinSep, quote, startsValue, isWs]
    · simp only [JsFields.size, joinSep, List.length_append, List.length_cons] at hsz2 hsz ⊢
      omega
    · intro fuel k rest hf
      obtain ⟨f, rfl⟩ : ∃ f, fuel = f + 1 := ⟨fuel - 1, by simp [JsFields.size] at hf; omega⟩
      have hq := hparse2 f k rest (by simp [JsFields.size] at hf ⊢; omega)
      have hp := hparse f (',' :: '\n' :: spaces ind ++
        (joinSep (',' :: '\n' :: spaces ind) (p :: ps) ++ '\n' :: (spaces k ++ '\x7d' :: rest)))
        (by simp [JsFields.size] at hf; omega) rfl
      have := parseMembers_more f ind key t _ _ rest v _ hsv hsv2 hp hq
      simpa [joinSep] using this
end


/-- `JSON.parse(JSON.stringify(v, null, 2))` is `v` again, and the text is not
empty, for every value `JSON.parse` can produce. -/
theorem jsonParse_jsonStringify (hν : LawfulJsNumber ν) (v : JsVal ν) (h : v.isJson = true) :
    ∃ text, jsonStringify v = .ok (some text) ∧ text.data.isEmpty = false ∧
      jsonParse text = .ok v := by
  obtain ⟨t, hser, hsv, hsz, hparse⟩ := roundtrip_value hν v 0 h
  refine ⟨String.mk t, by simp [jsonStringify, hser], ?_, ?_⟩
  · obtain ⟨c, tl, rfl, -⟩ := startsValue_cons t hsv
    rfl
  · have h1 := hparse (t.length + 1) [] (by omega) rfl
    have h2 := skipWs_startsValue t [] hsv
    simp only [List.append_nil] at h1 h2
    simp [jsonParse, h1, h2, skipWs]



/-! ## The integers are lawful numbers -/

theorem intOfLiteral_intDigits (i : Int) : intOfLiteral (intDigits i) = some i := by
  cases i with
  | ofNat n =>
    obtain ⟨d, tail, m, h1, h2, -, -⟩ := natDigitsAux_spec (n + 1) n (by omega)
    have hp := parseNat_natDigits n
    have hne : digitChar d ≠ '-' := by
      interval_cases d <;> decide
    simp only [intDigits]
    unfold natDigits at hp ⊢
    rw [h1] at hp ⊢
    simp only [intOfLiteral, hne, if_false, hp]
    rfl
  | negSucc n =>
    have hp := parseNat_natDigits (n + 1)
    simp only [intDigits, intOfLiteral, if_true, hp]
    rfl

theorem isNumberChar_of_isDigit (c : Char) (h : isDigit c = true) : isNumberChar c = true := by
  simp [isNumberChar, h]

theorem int_lawful : LawfulJsNumber Int where
  literal_toText := intOfLiteral_intDigits
  toText_chars := by
    intro x c hc
    cases x with
    | ofNat n => exact isNumberChar_of_isDigit c (natDigits_digits n c hc)
    | negSucc n =>
      have hc2 : c ∈ '-' :: natDigits (n + 1) := hc
      rw [List.mem_cons] at hc2
      rcases hc2 with hc2 | hc2
      · subst hc2
        rfl
      · exact isNumberChar_of_isDigit c (natDigits_digits _ c hc2)
  toText_head := by
    intro x
    cases x with
    | ofNat n =>
      obtain ⟨d, tail, m, h1, h2, -, -⟩ := natDigitsAux_spec (n + 1) n (by omega)
      exact ⟨digitChar d, tail, h1, Or.inr (isDigit_digitChar d h2)⟩
    | negSucc n => exact ⟨'-', natDigits (n + 1), rfl, Or.inl rfl⟩


/-! ## Which body read the wrapper makes (C9) -/

/-- The events of a call of the patched fetch whose primitive resolves, when
the console works, `clone()` returns, the header enumeration returns and the
body read settles. -/
theorem since_patchedFetch_resolved (w : World ν) (args : List (JsVal ν)) (s : Sys ν)
    (r : Response ν) (data : JsVal ν)
    (hf : w.fetch args = .resolved r)
    (hd : ∀ k, w.displayThrows k = none)
    (hc : r.cloneThrows = none) (he : r.entriesThrows = none)
    (hread : (readBody r r.cloned Sys.init).1 = some data) :
    Sys.since s (patchedFetch w args s).2 =
      .display (requestRecord (argAt args 0) (argAt args 1) (w.timeString s.stampReads))
        :: .fetchCall args :: .clone :: ((readBody r r.cloned Sys.init).2.trace ++
          [.display (responseRecord (argAt args 0)
            (JsNumber.sub (w.now (s.clockReads + 1)) (w.now s.clockReads)) r
            data (w.timeString (s.stampReads + 1)))]) := by
  rw [patchedFetch_resolved w args s r data hf hd hc he hread]
  simp [Sys.since]

theorem bodyReads_readBody (r rc : Response ν) :
    bodyReads (readBody r rc Sys.init).2.trace = (readBody r rc Sys.init).2.trace := by
  unfold readBody
  cases r.headersGetThrows with
  | some e => rfl
  | none =>
    cases headerGet "content-type" r.headers with
    | none => rfl
    | some ct =>
      by_cases h1 : (!ct.data.isEmpty && includes ct.data "application/json".data) = true
      · simp only [h1, if_true]
        cases rc.json <;> rfl
      · simp only [h1]
        by_cases h2 : (!ct.data.isEmpty && includes ct.data "text/".data) = true
        · simp only [h2, if_true]
          cases rc.text <;> rfl
        · simp only [h2]
          rfl

/-- The body reads of a call of the patched fetch whose primitive resolves,
when the console works and `clone()` returns, are those of the inner `try`,
however the call goes on. -/
theorem bodyReads_patchedFetch (w : World ν) (args : List (JsVal ν)) (s : Sys ν)
    (r : Response ν)
    (hf : w.fetch args = .resolved r)
    (hd : ∀ k, w.displayThrows k = none)
    (hc : r.cloneThrows = none) :
    bodyReads (Sys.since s (patchedFetch w args s).2) =
      (readBody r r.cloned Sys.init).2.trace := by
  rw [patchedFetch_unfold w args s hd, hf]
  simp only []
  cases hread : (readBody r r.cloned Sys.init).1 with
  | none =>
    rw [onResolved_pending _ _ _ _ _ hc hread]
    simp [Sys.since, bodyReads, bodyReads_readBody]
  | some data =>
    cases he : r.entriesThrows with
    | some thrown =>
      have : ∀ (t0 : ν) (s1 : Sys ν), onResolved w (argAt args 0) t0 r s1 =
          onRejected w (argAt args 0) t0 thrown
            { trace := s1.trace ++ .clone :: (readBody r r.cloned Sys.init).2.trace
              clockReads := s1.clockReads + 1
              stampReads := s1.stampReads
              displayCalls := s1.displayCalls } := by
        intro t0 s1
        unfold onResolved
        simp only [dateNow, hc, he, Sys.push]
        rw [readBody_state, hread]
        simp
      rw [this, onRejected_ok _ _ _ _ _ hd]
      simp [Sys.since, bodyReads, bodyReads_append, bodyReads_readBody]
    | none =>
      rw [onResolved_ok _ _ _ _ _ data hd hc he hread]
      simp [Sys.since, bodyReads, bodyReads_append, bodyReads_readBody]

/-- C9, as stated, fails for a resolved response when a step outside the
inner `try` throws. With a content-type that names JSON: when `clone()` throws
no body is read and the caller is rejected; when `headers.get` throws no body
is read; when `json()` rejects and the header enumeration throws, or the
console throws on the display call for the response, no response record is
emitted and the caller is rejected. -/
theorem unguarded_failure_breaks_body_logging :
    (headerGet "content-type" uncloneableResponse.headers
        = some "application/json; charset=utf-8" ∧
      includes "application/json; charset=utf-8".data "application/json".data = true ∧
      bodyReads (globalFetch (loadModule true (Runtime.fresh none) (Sys.init : Sys Int)).1
        (quietWorld (.resolved uncloneableResponse)) [.str todoUrl] Sys.init).2.trace = [] ∧
      (globalFetch (loadModule true (Runtime.fresh none) (Sys.init : Sys Int)).1
        (quietWorld (.resolved uncloneableResponse)) [.str todoUrl] Sys.init).1
        = .rejected (typeError "Already read")) ∧
    (headerGet "content-type" unreadableHeadersResponse.headers
        = some "application/json; charset=utf-8" ∧
      bodyReads (globalFetch (loadModule true (Runtime.fresh none) (Sys.init : Sys Int)).1
        (quietWorld (.resolved unreadableHeadersResponse)) [.str todoUrl] Sys.init).2.trace
        = []) ∧
    (unlistableResponse.json = .rejected (syntaxError "Unexpected token < in JSON") ∧
      (displayed (globalFetch (loadModule true (Runtime.fresh none) (Sys.init : Sys Int)).1
        (quietWorld (.resolved unlistableResponse)) [.str todoUrl] Sys.init).2.trace).map
          DisplayRecord.name
        = ["📡 FETCH REQUEST", "❌ FETCH ERROR"] ∧
      (globalFetch (loadModule true (Runtime.fresh none) (Sys.init : Sys Int)).1
        (quietWorld (.resolved unlistableResponse)) [.str todoUrl] Sys.init).1
        = .rejected (typeError "entries is not a function")) ∧
    (badJsonResponse.json = .rejected (syntaxError "Unexpected token < in JSON") ∧
      (displayed (globalFetch (loadModule true (Runtime.fresh none) (Sys.init : Sys Int)).1
        (droppedConsoleWorld (.resolved badJsonResponse)) [.str todoUrl] Sys.init).2.trace).map
          DisplayRecord.name
        = ["📡 FETCH REQUEST"] ∧
      (globalFetch (loadModule true (Runtime.fresh none) (Sys.init : Sys Int)).1
        (droppedConsoleWorld (.resolved badJsonResponse)) [.str todoUrl] Sys.init).1
        = .rejected (typeError "socket closed")) :=
  ⟨⟨rfl, rfl, rfl, rfl⟩, ⟨rfl, rfl⟩, ⟨rfl, rfl, rfl⟩, ⟨rfl, rfl, rfl⟩⟩

/-- C9, amended: in development mode, for a resolved response `r` whose
`clone()`, `headers.get` and header enumeration do not throw, with a console
whose display calls return: the wrapper calls `json()` on the clone, and
nothing else, when the content-type value contains `application/json` (also
when it contains `text/` as well); it calls `text()` on the clone, and nothing
else, when the value contains `text/` but not `application/json`; it reads no
body when there is no content-type or it contains neither. When the read
rejects, and when no read is made, the caller gets `r` itself and a response
record with Data `undefined` follows the request record; whenever the read
settles the caller gets `r` itself and a response record follows the request
record. -/
theorem body_read_follows_content_type (g0 : Runtime) (s0 : Sys ν) (w : World ν)
    (args : List (JsVal ν)) (s : Sys ν) (r : Response ν)
    (hf : w.fetch args = .resolved r)
    (hd : ∀ k, w.displayThrows k = none)
    (hc : r.cloneThrows = none) (he : r.entriesThrows = none)
    (hg : r.headersGetThrows = none) :
    (∀ ct, headerGet "content-type" r.headers = some ct →
      includes ct.data "application/json".data = true →
      bodyReads (Sys.since s (globalFetch (loadModule true g0 s0).1 w args s).2)
          = [.readJson (r.copy + 1)] ∧
        (∀ err, r.json = .rejected err →
          (globalFetch (loadModule true g0 s0).1 w args s).1 = .resolved r ∧
          ∃ req fin,
            displayed (Sys.since s (globalFetch (loadModule true g0 s0).1 w args s).2)
              = [req, fin] ∧
            req.name = "📡 FETCH REQUEST" ∧ fin.name = "✅ FETCH RESPONSE" ∧
            fin.field "Data" = some .undefined)) ∧
    (∀ ct, headerGet "content-type" r.headers = some ct →
      includes ct.data "application/json".data = false →
      includes ct.data "text/".data = true →
      bodyReads (Sys.since s (globalFetch (loadModule true g0 s0).1 w args s).2)
          = [.readText (r.copy + 1)] ∧
        (∀ err, r.text = .rejected err →
          (globalFetch (loadModule true g0 s0).1 w args s).1 = .resolved r ∧
          ∃ req fin,
            displayed (Sys.since s (globalFetch (loadModule true g0 s0).1 w args s).2)
              = [req, fin] ∧
            req.name = "📡 FETCH REQUEST" ∧ fin.name = "✅ FETCH RESPONSE" ∧
            fin.field "Data" = some .undefined)) ∧
    ((headerGet "content-type" r.headers = none ∨
        ∃ ct, headerGet "content-type" r.headers = some ct ∧
          includes ct.data "application/json".data = false ∧
          includes ct.data "text/".data = false) →
      bodyReads (Sys.since s (globalFetch (loadModule true g0 s0).1 w args s).2) = [] ∧
        (globalFetch (loadModule true g0 s0).1 w args s).1 = .resolved r ∧
        ∃ req fin,
          displayed (Sys.since s (globalFetch (loadModule true g0 s0).1 w args s).2)
            = [req, fin] ∧
          req.name = "📡 FETCH REQUEST" ∧ fin.name = "✅ FETCH RESPONSE" ∧
          fin.field "Data" = some .undefined) ∧
    (bodyReadSettles r = true →
      (globalFetch (loadModule true g0 s0).1 w args s).1 = .resolved r ∧
      ∃ req fin,
        displayed (Sys.since s (globalFetch (loadModule true g0 s0).1 w args s).2)
          = [req, fin] ∧
        req.name = "📡 FETCH REQUEST" ∧ fin.name = "✅ FETCH RESPONSE") := by
  simp only [globalFetch, loadModule_dev_fetchPatched, if_true]
  have hsettled : ∀ data, (readBody r r.cloned Sys.init).1 = some data →
      (patchedFetch w args s).1 = .resolved r ∧
      displayed (Sys.since s (patchedFetch w args s).2)
        = [requestRecord (argAt args 0) (argAt args 1) (w.timeString s.stampReads),
           responseRecord (argAt args 0)
            (JsNumber.sub (w.now (s.clockReads + 1)) (w.now s.clockReads)) r
            data (w.timeString (s.stampReads + 1))] := by
    intro data hread
    rw [since_patchedFetch_resolved w args s r data hf hd hc he hread]
    refine ⟨by rw [patchedFetch_resolved w args s r data hf hd hc he hread], ?_⟩
    simp [displayed, displayed_append, (readBody_quiet r r.cloned).2]
  have hnull : (readBody r r.cloned Sys.init).1 = some .null →
      (patchedFetch w args s).1 = .resolved r ∧
      ∃ req fin, displayed (Sys.since s (patchedFetch w args s).2) = [req, fin] ∧
        req.name = "📡 FETCH REQUEST" ∧ fin.name = "✅ FETCH RESPONSE" ∧
        fin.field "Data" = some .undefined := by
    intro hread
    obtain ⟨h1, h2⟩ := hsettled .null hread
    refine ⟨h1, _, _, h2, rfl, rfl, ?_⟩
    rw [data_field_responseRecord]
    rfl
  refine ⟨?_, ?_, ?_, ?_⟩
  · intro ct hct hj
    have hrb := readBody_json r r.cloned ct hg hct hj
    refine ⟨?_, ?_⟩
    · rw [bodyReads_patchedFetch w args s r hf hd hc, hrb]
      rfl
    · intro err herr
      apply hnull
      rw [hrb]
      simp [Response.cloned, herr]
  · intro ct hct hj ht
    have hrb := readBody_text r r.cloned ct hg hct hj ht
    refine ⟨?_, ?_⟩
    · rw [bodyReads_patchedFetch w args s r hf hd hc, hrb]
      rfl
    · intro err herr
      apply hnull
      rw [hrb]
      simp [Response.cloned, herr]
  · intro h
    have hrb := readBody_none r r.cloned (Or.inr h)
    refine ⟨?_, ?_⟩
    · rw [bodyReads_patchedFetch w args s r hf hd hc, hrb]
      rfl
    · apply hnull
      rw [hrb]
  · intro hs
    obtain ⟨data, hread⟩ := bodyReadSettles_data r hs
    obtain ⟨h1, h2⟩ := hsettled data hread
    exact ⟨h1, _, _, h2, rfl, rfl⟩

theorem body_read_follows_content_type_witness :
    bodyReads (Sys.since Sys.init
      (globalFetch (loadModule true (Runtime.fresh none) (Sys.init : Sys Int)).1
        (quietWorld (.resolved brokenTextResponse)) [.str todoUrl] Sys.init).2)
        = [.readText 1] ∧
    (globalFetch (loadModule true (Runtime.fresh none) (Sys.init : Sys Int)).1
        (quietWorld (.resolved brokenTextResponse)) [.str todoUrl] Sys.init).1
      = .resolved brokenTextResponse ∧
    ∃ req fin,
      displayed (Sys.since Sys.init
        (globalFetch (loadModule true (Runtime.fresh none) (Sys.init : Sys Int)).1
          (quietWorld (.resolved brokenTextResponse)) [.str todoUrl] Sys.init).2) = [req, fin] ∧
      req.name = "📡 FETCH REQUEST" ∧ fin.name = "✅ FETCH RESPONSE" ∧
      fin.field "Data" = some .undefined := by
  obtain ⟨-, h5, -, -⟩ :=
    body_read_follows_content_type (Runtime.fresh none) Sys.init
      (quietWorld (.resolved brokenTextResponse)) [.str todoUrl] Sys.init brokenTextResponse
      rfl (fun _ => rfl) rfl rfl rfl
  obtain ⟨h6, h7⟩ := h5 "text/html" rfl (by decide) (by decide)
  exact ⟨h6, h7 _ rfl⟩


/-! ## `formatForLog` (C10) -/

theorem serialize_ne_undefined (ind : Nat) (v : JsVal ν) (h : serialize ind v = .ok none) :
    v = .undefined := by
  cases v with
  | undefined => rfl
  | null => simp [serialize] at h
  | bool b => cases b <;> simp [serialize] at h
  | num n => simp [serialize] at h
  | nan => simp [serialize] at h
  | bigint n => simp [serialize] at h
  | str s => simp [serialize] at h
  | arr xs =>
    simp only [serialize] at h
    cases h2 : serializeElems (ind + 2) xs <;> simp [h2] at h
  | obj fs =>
    simp only [serialize] at h
    cases h2 : serializeMembers (ind + 2) fs <;> simp [h2] at h

theorem jsonStringify_ne_undefined (v : JsVal ν) (h : jsonStringify v = .ok none) :
    v = .undefined := by
  apply serialize_ne_undefined 0
  unfold jsonStringify at h
  cases h2 : serialize 0 v with
  | error e => simp [h2] at h
  | ok r =>
    cases r with
    | none => rfl
    | some t => simp [h2] at h

theorem formatForLog_falsy (v : JsVal ν) (h : v.truthy = false) : formatForLog v = .undefined := by
  simp [formatForLog, h]

/-- C10: `formatForLog` returns `undefined` for every falsy value (among them
`null`, `undefined`, `false`, zero, `NaN` and the empty string), returns a
non-empty string unchanged, and for any other value returns the text of
`JSON.stringify(value, null, 2)`, or `String(value)` when that call throws (it
never returns `undefined` for such a value). So a response whose body read
yields a falsy value is displayed with the very record of a failed or skipped
read, Data `undefined`; a JSON or text body that was read is the value the
read gave; and a request with an empty-string body or without headers is
displayed with Body, respectively Headers, `undefined`. -/
theorem formatForLog_cases (g0 : Runtime) (s0 : Sys ν) (w : World ν) (args : List (JsVal ν))
    (s : Sys ν) (r : Response ν)
    (hf : w.fetch args = .resolved r)
    (hd : ∀ k, w.displayThrows k = none)
    (hc : r.cloneThrows = none) (he : r.entriesThrows = none)
    (hg : r.headersGetThrows = none) :
    (∀ v : JsVal ν, v.truthy = false → formatForLog v = .undefined) ∧
    (formatForLog (.null : JsVal ν) = .undefined ∧
      formatForLog (.undefined : JsVal ν) = .undefined ∧
      formatForLog (.bool false : JsVal ν) = .undefined ∧
      (∀ x : ν, JsNumber.isZero x = true → formatForLog (.num x) = .undefined) ∧
      formatForLog (.nan : JsVal ν) = .undefined ∧
      formatForLog (.str "" : JsVal ν) = .undefined) ∧
    (∀ t : String, t ≠ "" → formatForLog (.str t : JsVal ν) = .str t) ∧
    (∀ v : JsVal ν, v.truthy = true → (∀ t, v ≠ .str t) →
      (∀ t, jsonStringify v = .ok (some t) → formatForLog v = .str t) ∧
      (∀ err, jsonStringify v = .error err → formatForLog v = .str (toJsString v)) ∧
      jsonStringify v ≠ .ok none) ∧
    (∀ ct v, headerGet "content-type" r.headers = some ct →
      includes ct.data "application/json".data = true → r.json = .resolved v →
      (readBody r r.cloned Sys.init).1 = some v) ∧
    (∀ ct t, headerGet "content-type" r.headers = some ct →
      includes ct.data "application/json".data = false →
      includes ct.data "text/".data = true → r.text = .resolved t →
      (readBody r r.cloned Sys.init).1 = some (.str t)) ∧
    (∀ v, (readBody r r.cloned Sys.init).1 = some v → v.truthy = false →
      displayed (Sys.since s (globalFetch (loadModule true g0 s0).1 w args s).2)
        = [requestRecord (argAt args 0) (argAt args 1) (w.timeString s.stampReads),
           responseRecord (argAt args 0)
             (JsNumber.sub (w.now (s.clockReads + 1)) (w.now s.clockReads)) r
             .null (w.timeString (s.stampReads + 1))] ∧
      (responseRecord (argAt args 0)
        (JsNumber.sub (w.now (s.clockReads + 1)) (w.now s.clockReads)) r
        .null (w.timeString (s.stampReads + 1))).field "Data" = some .undefined) ∧
    ((argAt args 1).getOpt "body" = .str "" →
      (requestRecord (argAt args 0) (argAt args 1) (w.timeString s.stampReads)).field "Body"
        = some .undefined) ∧
    ((argAt args 1).getOpt "headers" = .undefined →
      (requestRecord (argAt args 0) (argAt args 1) (w.timeString s.stampReads)).field "Headers"
        = some .undefined) := by
  refine ⟨formatForLog_falsy, ⟨rfl, rfl, rfl, ?_, rfl, rfl⟩, ?_, ?_, ?_, ?_, ?_, ?_, ?_⟩
  · intro x hx
    exact formatForLog_falsy _ (by simp [JsVal.truthy, hx])
  · intro t ht
    simp [formatForLog, JsVal.truthy, data_isEmpty_of_ne t ht]
  · intro v hv hns
    refine ⟨?_, ?_, ?_⟩
    · intro t ht
      cases v <;> simp_all [formatForLog, optStr]
    · intro err herr
      cases v <;> simp_all [formatForLog, optStr]
    · intro h
      have := jsonStringify_ne_undefined v h
      subst this
      simp [JsVal.truthy] at hv
  · intro ct v hct hj hv
    rw [readBody_json r r.cloned ct hg hct hj]
    simp [Response.cloned, hv]
  · intro ct t hct hj ht hv
    rw [readBody_text r r.cloned ct hg hct hj ht]
    simp [Response.cloned, hv]
  · intro v hread hfalsy
    simp only [globalFetch, loadModule_dev_fetchPatched, if_true]
    rw [since_patchedFetch_resolved w args s r v hf hd hc he hread]
    have h3 : ∀ url d ts, responseRecord url d r v ts = responseRecord url d r .null ts := by
      intro url d ts
      have h4 : formatForLog v = formatForLog .null := by
        rw [formatForLog_falsy _ hfalsy]; rfl
      simp only [responseRecord, h4]
    refine ⟨by simp [displayed, displayed_append, (readBody_quiet r r.cloned).2, h3], ?_⟩
    rw [data_field_responseRecord]
    rfl
  · intro hb
    rw [body_field_requestRecord, hb]
    rfl
  · intro hh
    rw [headers_field_requestRecord, hh]
    rfl

theorem formatForLog_cases_witness :
    formatForLog (.bigint 0 : JsVal Int) = .undefined ∧
    formatForLog (.str "a=1" : JsVal Int) = .str "a=1" ∧
    formatForLog (.arr (.cons (.num 1) .nil) : JsVal Int) = .str "[\n  1\n]" ∧
    formatForLog (.arr (.cons (.bigint 5) .nil) : JsVal Int) = .str "5" ∧
    (readBody zeroResponse zeroResponse.cloned Sys.init).1 = some (.num 0) ∧
    (displayed (Sys.since Sys.init
        (globalFetch (loadModule true (Runtime.fresh none) (Sys.init : Sys Int)).1
          (quietWorld (.resolved zeroResponse))
          [.str todoUrl, .obj (.cons "body" (.str "") .nil)] Sys.init).2)
      = [requestRecord (.str todoUrl) (.obj (.cons "body" (.str "") .nil)) "12:00:00",
         responseRecord (.str todoUrl) 25 zeroResponse .null "12:00:00"] ∧
      (responseRecord (.str todoUrl) (25 : Int) zeroResponse .null "12:00:00").field "Data"
        = some .undefined) ∧
    (requestRecord (.str todoUrl) (.obj (.cons "body" (.str "") .nil) : JsVal Int)
        "12:00:00").field "Body"
      = some .undefined ∧
    (requestRecord (.str todoUrl) (.obj (.cons "body" (.str "") .nil) : JsVal Int)
        "12:00:00").field "Headers"
      = some .undefined := by
  obtain ⟨h1, -, h3, h4, h5, -, h7, h8, h9⟩ :=
    formatForLog_cases (Runtime.fresh none) Sys.init (quietWorld (.resolved zeroResponse))
      [.str todoUrl, .obj (.cons "body" (.str "") .nil)] Sys.init zeroResponse
      rfl (fun _ => rfl) rfl rfl rfl
  refine ⟨h1 _ rfl, h3 _ (by decide), ?_, ?_, ?_, h7 (.num 0) rfl rfl, h8 rfl, h9 rfl⟩
  · exact (h4 (.arr (.cons (.num 1) .nil)) rfl (fun t h => by cases h)).1 _ rfl
  · exact (h4 (.arr (.cons (.bigint 5) .nil)) rfl (fun t h => by cases h)).2.1 _ rfl
  · exact h5 "application/json; charset=utf-8" (.num 0) rfl (by decide) rfl


/-! ## The JSON scenario (C6) -/

mutual
/-- React renders a value without a plain object in it. -/
theorem childText_renderable : ∀ v : JsVal ν, v.renderable = true → ∃ t, childText v = .ok t
  | .undefined, _ => ⟨_, rfl⟩
  | .null, _ => ⟨_, rfl⟩
  | .bool _, _ => ⟨_, rfl⟩
  | .num _, _ => ⟨_, rfl⟩
  | .nan, _ => ⟨_, rfl⟩
  | .bigint _, _ => ⟨_, rfl⟩
  | .str _, _ => ⟨_, rfl⟩
  | .arr xs, h => by
    obtain ⟨t, ht⟩ := childrenText_renderable xs (by simpa [JsVal.renderable] using h)
    exact ⟨t, by simp [childText, ht]⟩
  | .obj _, h => by simp [JsVal.renderable] at h
theorem childrenText_renderable : ∀ xs : JsList ν, xs.allRenderable = true →
    ∃ t, childrenText xs = .ok t
  | .nil, _ => ⟨_, rfl⟩
  | .cons v rest, h => by
    simp only [JsList.allRenderable, Bool.and_eq_true] at h
    obtain ⟨t, ht⟩ := childText_renderable v h.1
    obtain ⟨ts, hts⟩ := childrenText_renderable rest h.2
    exact ⟨t ++ ts, by simp [childrenText, ht, hts]⟩
end

/-- The card for a text that parses to a value other than `null` whose three
text children render. -/
theorem renderCard_value (text : String) (j : JsVal ν) (a b d : List Char)
    (h : jsonParse text = .ok j) (h1 : j ≠ .null) (h2 : j ≠ .undefined)
    (ha : childText (j.getOpt "id") = .ok a) (hb : childText (j.getOpt "title") = .ok b)
    (hd : childText (j.getOpt "userId") = .ok d) :
    renderCard ν text =
      .ok (.card (String.mk a) (String.mk b)
        (if (j.getOpt "completed").truthy then "Yes" else "No") (String.mk d)) := by
  have hget : ∀ k, j.get k = .ok (j.getOpt k) := by
    intro k
    cases j <;> first | exact absurd rfl h1 | exact absurd rfl h2 | rfl
  simp [renderCard, h, hget, ha, hb, hd]

theorem render_success (text : String) (h : text.data.isEmpty = false) :
    render ν { data := some text, loading := false, error := none } =
      match renderCard ν text with
      | .ok card => .ok [card]
      | .error e => .error e := by
  simp only [render, h]
  cases renderCard ν text <;> simp

theorem chainUpdates_json (r : Response ν) (s : Sys ν) (body : JsVal ν) (text : String)
    (hj : r.json = .resolved body) (ht : jsonStringify body = .ok (some text)) :
    chainUpdates (.resolved r) s =
      ([.setData (some text), .setLoading false], s.push (.readJson r.copy)) := by
  simp [chainUpdates, hj, onSuccess, ht]

/-- C6, as stated, fails. A JSON object body with the four properties whose
title is itself an object ends in the success state, and the card then throws
while rendering (React does not render a plain object). In development mode
the screen of the scenario ends in the error state when `clone()`, the header
enumeration or the console display call for the response throws, and no
response record is displayed; and when `headers.get` throws the response
record has Data `undefined`. -/
theorem json_scenario_fails :
    (AppState.initial.applyAll
        (mountEffect (loadModule false (Runtime.fresh none) (Sys.init : Sys Int)).1
          (quietWorld (.resolved nestedTitleResponse)) Sys.init).1
        = { data := some
              "\x7b\n  \"id\": 1,\n  \"title\": \x7b\n    \"en\": \"t\"\n  \x7d,\n  \"completed\": false,\n  \"userId\": 1\n\x7d"
            loading := false, error := none } ∧
      render Int (AppState.initial.applyAll
        (mountEffect (loadModule false (Runtime.fresh none) (Sys.init : Sys Int)).1
          (quietWorld (.resolved nestedTitleResponse)) Sys.init).1)
        = .error invalidChild) ∧
    (render Int (AppState.initial.applyAll
        (mountEffect (loadModule true (Runtime.fresh none) (Sys.init : Sys Int)).1
          (quietWorld (.resolved uncloneableResponse)) Sys.init).1)
        = .ok [.error "Error: Already read"] ∧
      (displayed (mountEffect (loadModule true (Runtime.fresh none) (Sys.init : Sys Int)).1
          (quietWorld (.resolved uncloneableResponse)) Sys.init).2.trace).map DisplayRecord.name
        = ["📡 FETCH REQUEST", "❌ FETCH ERROR"]) ∧
    (render Int (AppState.initial.applyAll
        (mountEffect (loadModule true (Runtime.fresh none) (Sys.init : Sys Int)).1
          (quietWorld (.resolved unlistableTodoResponse)) Sys.init).1)
        = .ok [.error "Error: entries is not a function"] ∧
      (displayed (mountEffect (loadModule true (Runtime.fresh none) (Sys.init : Sys Int)).1
          (quietWorld (.resolved unlistableTodoResponse)) Sys.init).2.trace).map
            DisplayRecord.name
        = ["📡 FETCH REQUEST", "❌ FETCH ERROR"]) ∧
    (render Int (AppState.initial.applyAll
        (mountEffect (loadModule true (Runtime.fresh none) (Sys.init : Sys Int)).1
          (droppedConsoleWorld (.resolved todoResponse)) Sys.init).1)
        = .ok [.error "Error: socket closed"] ∧
      (displayed (mountEffect (loadModule true (Runtime.fresh none) (Sys.init : Sys Int)).1
          (droppedConsoleWorld (.resolved todoResponse)) Sys.init).2.trace).map
            DisplayRecord.name
        = ["📡 FETCH REQUEST"]) ∧
    ((displayed (mountEffect (loadModule true (Runtime.fresh none) (Sys.init : Sys Int)).1
          (quietWorld (.resolved unreadableHeadersResponse)) Sys.init).2.trace).map
            (fun rec => (rec.name, rec.field "Data"))
        = [("📡 FETCH REQUEST", none), ("✅ FETCH RESPONSE", some .undefined)]) :=
  ⟨⟨rfl, rfl⟩, ⟨rfl, rfl⟩, ⟨rfl, rfl⟩, ⟨rfl, rfl⟩, rfl⟩

/-- C6, amended: when the primitive resolves with a response whose
content-type value contains `application/json` and whose body is a JSON object
with the properties id, title, completed and userId, where id, title and
userId are values React can render (no plain object in them), then in
production mode, and in development mode provided the console display calls,
`clone()` and the header enumeration do not throw, the screen ends with
loading false, error null and data the text of `JSON.stringify(body, null, 2)`,
and renders the card with ID `id`, Title `title`, User ID `userId` and
Completed `Yes` when `completed` is truthy and `No` otherwise; in development
mode, under the same proviso, a response record follows the request record,
and provided `headers.get` does not throw either its Data is that same text,
the serialization of the object `json()` gave. -/
theorem json_scenario (hν : LawfulJsNumber ν) (g0 : Runtime) (s0 : Sys ν) (w : World ν)
    (s : Sys ν) (r : Response ν)
    (fs : JsFields ν) (ct : String) (id title completed userId : JsVal ν)
    (hf : w.fetch [.str todoUrl] = .resolved r)
    (hj : r.json = .resolved (.obj fs))
    (hjson : (JsVal.obj fs).isJson = true)
    (hid : fs.lookup "id" = some id) (htitle : fs.lookup "title" = some title)
    (hcompleted : fs.lookup "completed" = some completed)
    (huser : fs.lookup "userId" = some userId)
    (hrid : id.renderable = true) (hrtitle : title.renderable = true)
    (hruser : userId.renderable = true)
    (hct : headerGet "content-type" r.headers = some ct)
    (hinc : includes ct.data "application/json".data = true) :
    ∃ text idText titleText userIdText,
      jsonStringify (.obj fs) = .ok (some text) ∧
      childText id = .ok idText ∧ childText title = .ok titleText ∧
      childText userId = .ok userIdText ∧
      (g0.fetchPatched = false →
        AppState.initial.applyAll (mountEffect (loadModule false g0 s0).1 w s).1
          = { data := some text, loading := false, error := none } ∧
        render ν (AppState.initial.applyAll (mountEffect (loadModule false g0 s0).1 w s).1)
          = .ok [.card (String.mk idText) (String.mk titleText)
              (if completed.truthy then "Yes" else "No") (String.mk userIdText)]) ∧
      ((∀ k, w.displayThrows k = none) → r.cloneThrows = none → r.entriesThrows = none →
        AppState.initial.applyAll (mountEffect (loadModule true g0 s0).1 w s).1
          = { data := some text, loading := false, error := none } ∧
        render ν (AppState.initial.applyAll (mountEffect (loadModule true g0 s0).1 w s).1)
          = .ok [.card (String.mk idText) (String.mk titleText)
              (if completed.truthy then "Yes" else "No") (String.mk userIdText)] ∧
        ∃ req fin,
          displayed (Sys.since s (mountEffect (loadModule true g0 s0).1 w s).2) = [req, fin] ∧
          req.name = "📡 FETCH REQUEST" ∧ fin.name = "✅ FETCH RESPONSE" ∧
          (r.headersGetThrows = none → fin.field "Data" = some (.str text))) := by
  obtain ⟨text, ht, hne, hparse⟩ := jsonParse_jsonStringify hν (.obj fs) hjson
  obtain ⟨a, ha⟩ := childText_renderable id hrid
  obtain ⟨b, hb⟩ := childText_renderable title hrtitle
  obtain ⟨d, hd⟩ := childText_renderable userId hruser
  have hcard : renderCard ν text = .ok (.card (String.mk a) (String.mk b)
      (if completed.truthy then "Yes" else "No") (String.mk d)) := by
    have := renderCard_value text (.obj fs) a b d hparse (by simp) (by simp)
      (by simp [JsVal.getOpt, hid, ha]) (by simp [JsVal.getOpt, htitle, hb])
      (by simp [JsVal.getOpt, huser, hd])
    simpa [JsVal.getOpt, hcompleted] using this
  have hscreen : ∀ g : Runtime, (globalFetch g w [.str todoUrl] s).1 = .resolved r →
      AppState.initial.applyAll (mountEffect g w s).1
          = { data := some text, loading := false, error := none } ∧
        render ν (AppState.initial.applyAll (mountEffect g w s).1)
          = .ok [.card (String.mk a) (String.mk b)
              (if completed.truthy then "Yes" else "No") (String.mk d)] := by
    intro g hout
    have hus : (mountEffect g w s).1
        = [.setLoading true, .setError none, .setData (some text), .setLoading false] := by
      rw [mountEffect_updates, hout, chainUpdates_json r _ _ text hj ht]
    rw [hus]
    have hst : AppState.initial.applyAll
        [.setLoading true, .setError none, .setData (some text), .setLoading false]
        = { data := some text, loading := false, error := none } := rfl
    rw [hst]
    refine ⟨rfl, ?_⟩
    rw [render_success text hne, hcard]
  refine ⟨text, a, b, d, ht, ha, hb, hd, ?_, ?_⟩
  · intro hg0
    apply hscreen
    simp [globalFetch, loadModule_prod_fetchPatched, hg0, originalFetch, hf]
  · intro hdisp hc he
    obtain ⟨data, hread, hdata⟩ : ∃ data, (readBody r r.cloned Sys.init).1 = some data ∧
        (r.headersGetThrows = none → data = .obj fs) := by
      cases hg : r.headersGetThrows with
      | some e =>
        exact ⟨.null, by rw [readBody_none r r.cloned (Or.inl (by simp [hg]))],
          fun h => by cases h⟩
      | none =>
        refine ⟨.obj fs, ?_, fun _ => rfl⟩
        rw [readBody_json r r.cloned ct hg hct hinc]
        simp [Response.cloned, hj]
    have hrun := patchedFetch_resolved w [.str todoUrl] s r data hf hdisp hc he hread
    have hout : (globalFetch (loadModule true g0 s0).1 w [.str todoUrl] s).1 = .resolved r := by
      simp only [globalFetch, loadModule_dev_fetchPatched, if_true]
      rw [hrun]
    obtain ⟨h1, h2⟩ := hscreen _ hout
    refine ⟨h1, h2, requestRecord (.str todoUrl) .undefined (w.timeString s.stampReads),
      responseRecord (.str todoUrl)
        (JsNumber.sub (w.now (s.clockReads + 1)) (w.now s.clockReads)) r
        data (w.timeString (s.stampReads + 1)), ?_, rfl, rfl, ?_⟩
    · rw [mountEffect_trace]
      simp only [globalFetch, loadModule_dev_fetchPatched, if_true]
      rw [hrun, chainUpdates_json r _ _ text hj ht]
      simp [Sys.since, Sys.push, displayed, displayed_append, (readBody_quiet r r.cloned).2,
        argAt]
    · intro hg
      rw [data_field_responseRecord, hdata hg]
      simp [formatForLog, JsVal.truthy, ht, optStr]

theorem json_scenario_witness :
    ∃ text, jsonStringify todoBody = .ok (some text) ∧
      (AppState.initial.applyAll
            (mountEffect (loadModule false (Runtime.fresh none) (Sys.init : Sys Int)).1
              (quietWorld (.resolved todoResponse)) Sys.init).1
          = { data := some text, loading := false, error := none } ∧
        render Int (AppState.initial.applyAll
            (mountEffect (loadModule false (Runtime.fresh none) (Sys.init : Sys Int)).1
              (quietWorld (.resolved todoResponse)) Sys.init).1)
          = .ok [.card "1" "t" "No" "1"]) ∧
      (AppState.initial.applyAll
            (mountEffect (loadModule true (Runtime.fresh none) (Sys.init : Sys Int)).1
              (quietWorld (.resolved todoResponse)) Sys.init).1
          = { data := some text, loading := false, error := none } ∧
        render Int (AppState.initial.applyAll
            (mountEffect (loadModule true (Runtime.fresh none) (Sys.init : Sys Int)).1
              (quietWorld (.resolved todoResponse)) Sys.init).1)
          = .ok [.card "1" "t" "No" "1"] ∧
        ∃ req fin,
          displayed (Sys.since Sys.init
            (mountEffect (loadModule true (Runtime.fresh none) (Sys.init : Sys Int)).1
              (quietWorld (.resolved todoResponse)) Sys.init).2) = [req, fin] ∧
          req.name = "📡 FETCH REQUEST" ∧ fin.name = "✅ FETCH RESPONSE" ∧
          fin.field "Data" = some (.str text)) := by
  obtain ⟨text, a, b, d, ht, ha, hb, hd, hprod, hdev⟩ :=
    json_scenario int_lawful (Runtime.fresh none) Sys.init (quietWorld (.resolved todoResponse))
      Sys.init todoResponse
      (JsFields.ofList [
        ("id", .num 1), ("title", .str "t"), ("completed", .bool false), ("userId", .num 1)])
      "application/json; charset=utf-8" (.num 1) (.str "t") (.bool false) (.num 1)
      rfl rfl rfl rfl rfl rfl rfl rfl rfl rfl rfl (by decide)
  have ha2 : (Except.ok ['1'] : Except JsError (List Char)) = .ok a := ha
  have hb2 : (Except.ok ['t'] : Except JsError (List Char)) = .ok b := hb
  have hd2 : (Except.ok ['1'] : Except JsError (List Char)) = .ok d := hd
  injection ha2 with ha3
  injection hb2 with hb3
  injection hd2 with hd3
  subst ha3 hb3 hd3
  obtain ⟨h1, h2, req, fin, h3, h4, h5, h6⟩ := hdev (fun _ => rfl) rfl rfl
  exact ⟨text, ht, hprod rfl, h1, h2, req, fin, h3, h4, h5, h6 rfl⟩


/-! ## The three views (C8) -/

/-- C8, as stated, fails. On a root that commits after each setter call, with
the response of the specification scenario the state after the first setter
call of the success handler (data set, loading still true) renders the loading
indicator together with the card, and a rejection renders the loading
indicator together with the error message after the first setter call of the
failure handler. In either mode a body that is JSON `null`, or whose title is
an object, leaves a state in which the card throws while rendering. -/
theorem two_views_between_updates :
    (renderedStates .perCall (loadModule true (Runtime.fresh none) (Sys.init : Sys Int)).1
        (quietWorld (.resolved todoResponse)) Sys.init).map (render Int)
      = [.ok [.loading], .ok [.loading],
         .ok [.loading, .card "1" "t" "No" "1"],
         .ok [.card "1" "t" "No" "1"]] ∧
    (renderedStates .perCall (loadModule true (Runtime.fresh none) (Sys.init : Sys Int)).1
        (quietWorld (.rejected networkError)) Sys.init).map (render Int)
      = [.ok [.loading], .ok [.loading],
         .ok [.loading, .error "Error: Network request failed"],
         .ok [.error "Error: Network request failed"]] ∧
    (renderedStates .batched (loadModule true (Runtime.fresh none) (Sys.init : Sys Int)).1
        (quietWorld (.resolved nullResponse)) Sys.init).map (render Int)
      = [.ok [.loading], .ok [.loading],
         .error (typeError "Cannot read property id of null")] ∧
    (renderedStates .batched (loadModule true (Runtime.fresh none) (Sys.init : Sys Int)).1
        (quietWorld (.resolved nestedTitleResponse)) Sys.init).map (render Int)
      = [.ok [.loading], .ok [.loading], .error invalidChild] :=
  ⟨rfl, rfl, rfl, rfl⟩

theorem errorText_nonempty (e : JsError) : (errorText e).data.isEmpty = false := by
  unfold errorText
  cases e.message with
  | none => rfl
  | some m =>
    by_cases h : m.data.isEmpty = true
    · simp [h]
    · simp only [h]
      simpa using h

/-- The setter calls of the handler of the promise chain: none, those of the
failure handler, or those of the success handler with a non-empty text that
renders as a card. -/
theorem handlerUpdates_shape (hν : LawfulJsNumber ν) (g : Runtime) (w : World ν) (s : Sys ν)
    (hbody : ∀ r j, (globalFetch g w [.str todoUrl] s).1 = .resolved r → r.json = .resolved j →
      j.isJson = true ∧ j ≠ .null ∧ cardRenderable j = true) :
    handlerUpdates g w s = [] ∨
    (∃ msg : String, msg.data.isEmpty = false ∧
      handlerUpdates g w s = [.setError (some msg), .setLoading false]) ∨
    (∃ (text a b c d : String),
      text.data.isEmpty = false ∧ renderCard ν text = .ok (.card a b c d) ∧
      handlerUpdates g w s = [.setData (some text), .setLoading false]) := by
  unfold handlerUpdates
  generalize (globalFetch g w [.str todoUrl] s).2 = s2
  cases hout : (globalFetch g w [.str todoUrl] s).1 with
  | pending => exact Or.inl rfl
  | rejected e => exact Or.inr (Or.inl ⟨errorText e, errorText_nonempty e, rfl⟩)
  | resolved r =>
    cases hj : r.json with
    | pending => exact Or.inl (by simp [chainUpdates, hj])
    | rejected e =>
      exact Or.inr (Or.inl ⟨errorText e, errorText_nonempty e,
        by simp [chainUpdates, hj, onFailure]⟩)
    | resolved j =>
      obtain ⟨hjson, hnull, hrend⟩ := hbody r j hout hj
      obtain ⟨text, ht, hne, hparse⟩ := jsonParse_jsonStringify hν j hjson
      have hund : j ≠ .undefined := by
        rintro rfl
        simp [JsVal.isJson] at hjson
      simp only [cardRenderable, Bool.and_eq_true] at hrend
      obtain ⟨a, ha⟩ := childText_renderable _ hrend.1.1
      obtain ⟨b, hb⟩ := childText_renderable _ hrend.1.2
      obtain ⟨d, hd⟩ := childText_renderable _ hrend.2
      exact Or.inr (Or.inr ⟨text, String.mk a, String.mk b, _, String.mk d, hne,
        renderCard_value text j a b d hparse hnull hund ha hb hd,
        by rw [chainUpdates_json r s2 j text hj ht]⟩)

/-- C8, amended: for a successful body that is a JSON value other than `null`
whose id, title and userId are values React can render, the first render
shows the loading indicator alone; when React commits the setter calls of a
handler together, every state the screen is rendered in shows exactly one
view; when it commits after each setter call, every such state shows one
view, or the loading indicator together with the error message or the card,
and once a handler of the request has run the state between its two setter
calls is of the second kind. In either mode the last state shows exactly one
view, which is the error message or the card once a handler has run, and no
state is rendered empty. -/
theorem one_view_when_settled (hν : LawfulJsNumber ν) (g : Runtime) (w : World ν) (s : Sys ν)
    (hbody : ∀ r j, (globalFetch g w [.str todoUrl] s).1 = .resolved r → r.json = .resolved j →
      j.isJson = true ∧ j ≠ .null ∧ cardRenderable j = true) :
    render ν AppState.initial = .ok [.loading] ∧
    (∀ st ∈ renderedStates .batched g w s, ∃ v, render ν st = .ok [v]) ∧
    (∀ st ∈ renderedStates .perCall g w s,
      (∃ v, render ν st = .ok [v]) ∨
      (∃ v, render ν st = .ok [.loading, v] ∧
        ((∃ text, v = .error text) ∨ (∃ a b c d, v = .card a b c d)))) ∧
    (handlerUpdates g w s ≠ [] →
      ∃ st ∈ renderedStates .perCall g w s, ∃ v, render ν st = .ok [.loading, v]) ∧
    (∀ mode, (renderedStates mode g w s).getLast?
        = some (AppState.initial.applyAll (mountEffect g w s).1) ∧
      ∃ v, render ν (AppState.initial.applyAll (mountEffect g w s).1) = .ok [v] ∧
        (handlerUpdates g w s ≠ [] →
          (∃ text, v = .error text) ∨ (∃ a b c d, v = .card a b c d))) ∧
    (∀ mode, ∀ st ∈ renderedStates mode g w s, ∃ v vs, render ν st = .ok (v :: vs)) := by
  have hmount : (mountEffect g w s).1
      = .setLoading true :: .setError none :: handlerUpdates g w s := mountEffect_updates g w s
  rw [hmount]
  refine ⟨rfl, ?_⟩
  rcases handlerUpdates_shape hν g w s hbody with
    hus | ⟨msg, hmsg, hus⟩ | ⟨text, a, b, c, d, hne, hcard, hus⟩
  · simp only [renderedStates, hus]
    refine ⟨?_, ?_, fun h => absurd rfl h, ?_, ?_⟩
    · intro st hst
      simp only [committedStates, List.mem_cons, List.mem_singleton, List.not_mem_nil,
        or_false] at hst
      rcases hst with rfl | rfl | rfl <;> exact ⟨.loading, rfl⟩
    · intro st hst
      simp only [committedStates, statesFrom, List.dropLast, List.nil_append, List.mem_cons,
        List.mem_singleton, List.not_mem_nil, or_false] at hst
      rcases hst with rfl | rfl <;> exact Or.inl ⟨.loading, rfl⟩
    · intro mode
      cases mode <;> exact ⟨rfl, .loading, rfl, fun h => absurd rfl h⟩
    · intro mode st hst
      cases mode <;>
        simp only [committedStates, statesFrom, List.dropLast, List.nil_append, List.mem_cons,
          List.mem_singleton, List.not_mem_nil, or_false] at hst
      · rcases hst with rfl | rfl | rfl <;> exact ⟨.loading, [], rfl⟩
      · rcases hst with rfl | rfl <;> exact ⟨.loading, [], rfl⟩
  · simp only [renderedStates, hus]
    have hmid : render ν ((AppState.initial.applyAll effectUpdates).apply
        (.setError (some msg))) = .ok [.loading, .error ("Error: " ++ msg)] := by
      simp [AppState.applyAll, AppState.apply, AppState.initial, effectUpdates, render, hmsg]
    have hfin : render ν ((AppState.initial.applyAll effectUpdates).applyAll
        [.setError (some msg), .setLoading false]) = .ok [.error ("Error: " ++ msg)] := by
      simp [AppState.applyAll, AppState.apply, AppState.initial, effectUpdates, render, hmsg]
    have hfin2 : render ν (AppState.initial.applyAll
        [.setLoading true, .setError none, .setError (some msg), .setLoading false])
        = .ok [.error ("Error: " ++ msg)] := hfin
    refine ⟨?_, ?_, fun _ => ⟨_, ?_, _, hmid⟩, ?_, ?_⟩
    · intro st hst
      simp only [committedStates, List.mem_cons, List.mem_singleton, List.not_mem_nil,
        or_false] at hst
      rcases hst with rfl | rfl | rfl
      · exact ⟨.loading, rfl⟩
      · exact ⟨.loading, rfl⟩
      · exact ⟨_, hfin⟩
    · intro st hst
      simp only [committedStates, statesFrom, List.dropLast, List.cons_append, List.nil_append,
        List.mem_cons, List.mem_singleton, List.not_mem_nil, or_false] at hst
      rcases hst with rfl | rfl | rfl | rfl
      · exact Or.inl ⟨.loading, rfl⟩
      · exact Or.inl ⟨.loading, rfl⟩
      · exact Or.inr ⟨_, hmid, Or.inl ⟨_, rfl⟩⟩
      · exact Or.inl ⟨_, hfin⟩
    · simp [committedStates, statesFrom, List.dropLast]
    · intro mode
      cases mode <;> exact ⟨rfl, _, hfin2, fun _ => Or.inl ⟨_, rfl⟩⟩
    · intro mode st hst
      cases mode <;>
        simp only [committedStates, statesFrom, List.dropLast, List.cons_append,
          List.nil_append, List.mem_cons, List.mem_singleton, List.not_mem_nil, or_false] at hst
      · rcases hst with rfl | rfl | rfl
        · exact ⟨.loading, [], rfl⟩
        · exact ⟨.loading, [], rfl⟩
        · exact ⟨_, [], hfin⟩
      · rcases hst with rfl | rfl | rfl | rfl
        · exact ⟨.loading, [], rfl⟩
        · exact ⟨.loading, [], rfl⟩
        · exact ⟨_, _, hmid⟩
        · exact ⟨_, [], hfin⟩
  · simp only [renderedStates, hus]
    have hmid : render ν ((AppState.initial.applyAll effectUpdates).apply
        (.setData (some text))) = .ok [.loading, .card a b c d] := by
      simp [AppState.applyAll, AppState.apply, AppState.initial, effectUpdates, render, hne,
        hcard]
    have hfin : render ν ((AppState.initial.applyAll effectUpdates).applyAll
        [.setData (some text), .setLoading false]) = .ok [.card a b c d] := by
      simp [AppState.applyAll, AppState.apply, AppState.initial, effectUpdates, render, hne,
        hcard]
    have hfin2 : render ν (AppState.initial.applyAll
        [.setLoading true, .setError none, .setData (some text), .setLoading false])
        = .ok [.card a b c d] := hfin
    refine ⟨?_, ?_, fun _ => ⟨_, ?_, _, hmid⟩, ?_, ?_⟩
    · intro st hst
      simp only [committedStates, List.mem_cons, List.mem_singleton, List.not_mem_nil,
        or_false] at hst
      rcases hst with rfl | rfl | rfl
      · exact ⟨.loading, rfl⟩
      · exact ⟨.loading, rfl⟩
      · exact ⟨_, hfin⟩
    · intro st hst
      simp only [committedStates, statesFrom, List.dropLast, List.cons_append, List.nil_append,
        List.mem_cons, List.mem_singleton, List.not_mem_nil, or_false] at hst
      rcases hst with rfl | rfl | rfl | rfl
      · exact Or.inl ⟨.loading, rfl⟩
      · exact Or.inl ⟨.loading, rfl⟩
      · exact Or.inr ⟨_, hmid, Or.inr ⟨_, _, _, _, rfl⟩⟩
      · exact Or.inl ⟨_, hfin⟩
    · simp [committedStates, statesFrom, List.dropLast]
    · intro mode
      cases mode <;> exact ⟨rfl, _, hfin2, fun _ => Or.inr ⟨_, _, _, _, rfl⟩⟩
    · intro mode st hst
      cases mode <;>
        simp only [committedStates, statesFrom, List.dropLast, List.cons_append,
          List.nil_append, List.mem_cons, List.mem_singleton, List.not_mem_nil, or_false] at hst
      · rcases hst with rfl | rfl | rfl
        · exact ⟨.loading, [], rfl⟩
        · exact ⟨.loading, [], rfl⟩
        · exact ⟨_, [], hfin⟩
      · rcases hst with rfl | rfl | rfl | rfl
        · exact ⟨.loading, [], rfl⟩
        · exact ⟨.loading, [], rfl⟩
        · exact ⟨_, _, hmid⟩
        · exact ⟨_, [], hfin⟩

theorem one_view_when_settled_witness :
    render Int AppState.initial = .ok [.loading] ∧
    (∀ st ∈ renderedStates .batched
        (loadModule true (Runtime.fresh none) (Sys.init : Sys Int)).1
        (quietWorld (.resolved todoResponse)) Sys.init, ∃ v, render Int st = .ok [v]) ∧
    (∃ st ∈ renderedStates .perCall
        (loadModule true (Runtime.fresh none) (Sys.init : Sys Int)).1
        (quietWorld (.resolved todoResponse)) Sys.init,
      ∃ v, render Int st = .ok [.loading, v]) ∧
    (∀ mode, ∀ st ∈ renderedStates mode
        (loadModule true (Runtime.fresh none) (Sys.init : Sys Int)).1
        (quietWorld (.resolved todoResponse)) Sys.init,
      ∃ v vs, render Int st = .ok (v :: vs)) := by
  obtain ⟨h1, h2, -, h4, -, h6⟩ :=
    one_view_when_settled int_lawful (loadModule true (Runtime.fresh none) (Sys.init : Sys Int)).1
      (quietWorld (.resolved todoResponse)) Sys.init
      (fun r j hr hj => by
        have h1 : todoResponse = r := by
          have : (Settle.resolved todoResponse : Settle (Response Int)) = .resolved r := hr
          injection this
        subst h1
        have h2 : todoBody = j := by
          have : (Settle.resolved todoBody : Settle (JsVal Int)) = .resolved j := hj
          injection this
        subst h2
        exact ⟨rfl, (fun h => by cases h), rfl⟩)
  refine ⟨h1, h2, h4 ?_, h6⟩
  intro h
  have h5 : ([.setData (some
      "\x7b\n  \"id\": 1,\n  \"title\": \"t\",\n  \"completed\": false,\n  \"userId\": 1\n\x7d"),
      .setLoading false] : List Update) = [] := h
  cases h5

end RNBare
